import Mathlib

/-! # File-state-change watcher (package `watch`)

A shallow embedding of `watch/filechanges.go` and `watch/inotify.go`.

* A Go `chan bool` is a capacity together with the queue of buffered values.
* The goroutine of `ChangeEvents` is a step function over one `select`
  outcome per iteration; the answers of the operating system (`os.Stat`,
  `origF.Stat`) are part of the input of the iteration.
* Every externally visible action (a send attempt on a slot, the grace sleep,
  `RemoveWatch`, a stat call, `util.Fatal`) is appended to a log, so that
  ordering and "exactly once" statements can be made about a run.
* `int64` sizes are `Int`; the code only compares and copies them.
-/

namespace Watch

/-! ## Notification channel (`filechanges.go`) -/

/-- Go channel of `bool`: its capacity and the values buffered in it, oldest first. -/
structure Chan where
  cap : Nat
  buf : List Bool
deriving DecidableEq, Repr

/-- The Go expression `make(chan bool, n)`. -/
def Chan.make (n : Nat) : Chan := ⟨n, []⟩

/-- Number of unread tokens in the channel. -/
def Chan.pending (ch : Chan) : Nat := ch.buf.length

/-- The struct `FileChanges`. -/
structure FileChanges where
  Modified : Chan
  Truncated : Chan
  Deleted : Chan
deriving DecidableEq, Repr

/-- `NewFileChanges`: three channels of capacity one. -/
def NewFileChanges : FileChanges :=
  ⟨Chan.make 1, Chan.make 1, Chan.make 1⟩

/-- `sendOnlyIfEmpty`: a `select` with a send case and an empty `default`.
The send case is taken exactly when the buffer has room. -/
def sendOnlyIfEmpty (ch : Chan) : Chan :=
  if ch.buf.length < ch.cap then { ch with buf := ch.buf ++ [true] } else ch

/-- The three slots of a `FileChanges`. -/
inductive Slot
  | Modified
  | Truncated
  | Deleted
deriving DecidableEq, Repr

/-- Externally visible actions, in the order the code performs them. -/
inductive Effect
  | send (slot : Slot)
  | sleep (ms : Nat)
  | removeWatch
  | statPath
  | statHandle
  | fatal
  | watchCreate
  | removeWatchCreate
  | recvEvent
deriving DecidableEq, Repr

/-- What the goroutine acts on: the channels, the content-watch registration
and the log of actions performed so far (oldest first). -/
structure Sys where
  changes : FileChanges
  watched : Bool
  log : List Effect
deriving DecidableEq, Repr

/-- The call `time.Sleep(time.Millisecond * ms)`: only recorded. -/
def Sleep (ms : Nat) (s : Sys) : Sys :=
  { s with log := s.log ++ [Effect.sleep ms] }

/-- `(*FileChanges).NotifyModified`. -/
def NotifyModified (s : Sys) : Sys :=
  { s with
    changes := { s.changes with Modified := sendOnlyIfEmpty s.changes.Modified }
    log := s.log ++ [Effect.send Slot.Modified] }

/-- The statement `sendOnlyIfEmpty(fc.Truncated)`. -/
def sendTruncated (s : Sys) : Sys :=
  { s with
    changes := { s.changes with Truncated := sendOnlyIfEmpty s.changes.Truncated }
    log := s.log ++ [Effect.send Slot.Truncated] }

/-- The statement `sendOnlyIfEmpty(fc.Deleted)`. -/
def sendDeleted (s : Sys) : Sys :=
  { s with
    changes := { s.changes with Deleted := sendOnlyIfEmpty s.changes.Deleted }
    log := s.log ++ [Effect.send Slot.Deleted] }

/-- `(*FileChanges).NotifyTruncated`. -/
def NotifyTruncated (s : Sys) : Sys :=
  sendTruncated (Sleep 100 (NotifyModified s))

/-- `(*FileChanges).NotifyDeleted`. -/
def NotifyDeleted (s : Sys) : Sys :=
  sendDeleted (Sleep 100 (NotifyModified s))

/-- Channel states that `NewFileChanges` and later sends and reads can produce:
every slot has capacity one and holds at most one token. -/
def FileChanges.Valid (fc : FileChanges) : Prop :=
  (fc.Modified.cap = 1 ∧ fc.Modified.buf.length ≤ 1) ∧
  (fc.Truncated.cap = 1 ∧ fc.Truncated.buf.length ≤ 1) ∧
  (fc.Deleted.cap = 1 ∧ fc.Deleted.buf.length ≤ 1)

instance (fc : FileChanges) : Decidable fc.Valid := by
  unfold FileChanges.Valid; infer_instance

/-! ## Operating-system and event-subsystem interface -/

/-- Go `error` values the code can meet: the classes of `os` errors that
`os.IsNotExist` and `os.IsPermission` tell apart, the error built by
`fmt.Errorf("inotify watcher has been closed")`, and `tomb.ErrDying`. -/
inductive Err
  | notExist
  | permission
  | other (code : Nat)
  | watcherClosed
  | dying
deriving DecidableEq, Repr

/-- `os.IsNotExist`, on a Go `error` (`none` is `nil`). -/
def IsNotExist : Option Err → Bool
  | some Err.notExist => true
  | _ => false

/-- `os.IsPermission`, on a Go `error` (`none` is `nil`). -/
def IsPermission : Option Err → Bool
  | some Err.permission => true
  | _ => false

/-- The part of `os.FileInfo` the watcher reads: size, modification time and
the identity (device and inode) that `os.SameFile` compares. -/
structure FileInfo where
  size : Int
  modTime : Int
  dev : Nat
  ino : Nat
deriving DecidableEq, Repr

/-- `os.SameFile`. -/
def SameFile (a b : FileInfo) : Bool := a.dev = b.dev && a.ino = b.ino

/-- Bit `fsnotify.Create` of `fsnotify.Op`. -/
def Create : Nat := 1
/-- Bit `fsnotify.Write` of `fsnotify.Op`. -/
def Write : Nat := 2
/-- Bit `fsnotify.Remove` of `fsnotify.Op`. -/
def Remove : Nat := 4
/-- Bit `fsnotify.Rename` of `fsnotify.Op`. -/
def Rename : Nat := 8
/-- Bit `fsnotify.Chmod` of `fsnotify.Op`. -/
def Chmod : Nat := 16

/-- `fsnotify.Event`. -/
structure Event where
  Name : String
  Op : Nat
deriving DecidableEq, Repr

/-- Modelled from the spec: `RemoveWatch` (the watch registry, file
`inotify_tracker.go`, is not part of the sources at hand). It releases the
content-watch registration of the path; the call is recorded. -/
def RemoveWatch (s : Sys) : Sys :=
  { s with watched := false, log := s.log ++ [Effect.removeWatch] }

/-- Modelled from the spec: `util.Fatal` (package `util` is not part of the
sources at hand), the process-wide fatal error path: it logs and exits the
process. Only the call is recorded; the caller stops with `Status.fatal`. -/
def Fatal (s : Sys) : Sys :=
  { s with log := s.log ++ [Effect.fatal] }

/-! ## Reconciliation loop of `ChangeEvents` (`inotify.go`) -/

/-- Variables of the goroutine: `fw.Size`, `prevSize`, `pollPrevSize`,
`prevModTime`, and the system it acts on. -/
structure LoopState where
  Size : Int
  prevSize : Int
  pollPrevSize : Int
  prevModTime : Int
  sys : Sys
deriving DecidableEq, Repr

/-- How an iteration of the `for` loop ends: `continue` or the end of the body
(`running`), `return` (`returned`), or process exit in `util.Fatal` (`fatal`). -/
inductive Status
  | running
  | returned
  | fatal
deriving DecidableEq, Repr

/-- Which case of the `select` statement fires: a receive `evt, ok = <-events`
(with `ok = false` when the feed is closed), `<-t.Dying()`, or `<-ticker.C`. -/
inductive Select
  | recv (evt : Event) (ok : Bool)
  | dying
  | tick
deriving DecidableEq, Repr

/-- Input of one iteration: the `select` outcome, and what `os.Stat(fw.Filename)`
and `origF.Stat()` answer should the iteration call them. -/
structure Input where
  sel : Select
  pathStat : Except Err FileInfo
  handleStat : Except Err FileInfo

/-- Body shared by the `Remove` case (through `fallthrough`) and the `Rename`
case, and used by every other branch that classifies the file as deleted:
`RemoveWatch(fw.Filename); changes.NotifyDeleted(); return`. -/
def deletedBranch (st : LoopState) : LoopState × Status :=
  ({ st with sys := NotifyDeleted (RemoveWatch st.sys) }, Status.returned)

/-- The `case !ok:` body of the `switch`: the ticker fired. -/
def pollBranch (windows : Bool) (origFi : FileInfo) (st : LoopState)
    (pathStat : Except Err FileInfo) : LoopState × Status :=
  let st : LoopState := { st with sys := { st.sys with log := st.sys.log ++ [Effect.statPath] } }
  match pathStat with
  | Except.error err =>
    if IsNotExist (some err) || (windows && IsPermission (some err)) then
      deletedBranch st
    else
      ({ st with sys := Fatal st.sys }, Status.fatal)
  | Except.ok fi =>
    if !SameFile origFi fi then
      deletedBranch st
    else
      let st : LoopState := { st with Size := fi.size }
      if st.pollPrevSize > 0 ∧ st.pollPrevSize > st.Size then
        let st : LoopState := { st with sys := NotifyTruncated st.sys }
        ({ st with pollPrevSize := st.Size }, Status.running)
      else if st.pollPrevSize > 0 ∧ st.pollPrevSize < st.Size then
        let st : LoopState := { st with sys := NotifyModified st.sys }
        ({ st with pollPrevSize := st.Size }, Status.running)
      else
        let st : LoopState := { st with pollPrevSize := st.Size }
        let modTime := fi.modTime
        if modTime ≠ st.prevModTime then
          let st : LoopState := { st with prevModTime := modTime }
          ({ st with sys := NotifyModified st.sys }, Status.running)
        else
          (st, Status.running)

/-- Body shared by the `Chmod` case (through `fallthrough`) and the `Write`
case of the `switch`. -/
def writeBranch (st : LoopState) (handleStat : Except Err FileInfo) :
    LoopState × Status :=
  let st : LoopState := { st with sys := { st.sys with log := st.sys.log ++ [Effect.statHandle] } }
  match handleStat with
  | Except.error err =>
    if IsNotExist (some err) then
      deletedBranch st
    else
      ({ st with sys := Fatal st.sys }, Status.fatal)
  | Except.ok fi =>
    let st : LoopState := { st with Size := fi.size }
    let st : LoopState :=
      if st.prevSize > 0 ∧ st.prevSize > st.Size then
        { st with sys := NotifyTruncated st.sys }
      else
        { st with sys := NotifyModified st.sys }
    ({ st with prevSize := st.Size }, Status.running)

/-- The `switch` statement, entered with the `evt` and `ok` left by the
`select`; it has no `default` case. -/
def switchBody (windows : Bool) (origFi : FileInfo) (st : LoopState)
    (evt : Event) (ok : Bool) (i : Input) : LoopState × Status :=
  if !ok then pollBranch windows origFi st i.pathStat
  else if evt.Op &&& Remove = Remove then deletedBranch st
  else if evt.Op &&& Rename = Rename then deletedBranch st
  else if evt.Op &&& Chmod = Chmod then writeBranch st i.handleStat
  else if evt.Op &&& Write = Write then writeBranch st i.handleStat
  else (st, Status.running)

/-- One iteration of the `for` loop: the `select`, then the `switch`.
On the ticker case `evt` and `ok` keep their zero values. -/
def iteration (windows : Bool) (origFi : FileInfo) (st : LoopState)
    (i : Input) : LoopState × Status :=
  match i.sel with
  | Select.recv evt ok =>
    if !ok then
      ({ st with sys := RemoveWatch st.sys }, Status.returned)
    else
      switchBody windows origFi st evt ok i
  | Select.dying =>
    ({ st with sys := RemoveWatch st.sys }, Status.returned)
  | Select.tick =>
    switchBody windows origFi st ⟨"", 0⟩ false i

/-- The `for` loop run on a finite sequence of inputs: it stops at the first
iteration that returns or exits, and is still running when the inputs end. -/
def runLoop (windows : Bool) (origFi : FileInfo) :
    LoopState → List Input → LoopState × Status
  | st, [] => (st, Status.running)
  | st, i :: rest =>
    match iteration windows origFi st i with
    | (st1, Status.running) => runLoop windows origFi st1 rest
    | (st1, Status.returned) => (st1, Status.returned)
    | (st1, Status.fatal) => (st1, Status.fatal)

/-- `ChangeEvents` up to the start of the goroutine: open the file, stat the
handle, register the watch, create the channels and seed the loop variables.
The answers of `os.Open`, `origF.Stat` and `Watch` are arguments. The result
is the snapshot `origFi` and the state in which the loop starts. -/
def ChangeEvents (openErr : Option Err) (origStat : Except Err FileInfo)
    (watchErr : Option Err) (pos : Int) : Except Err (FileInfo × LoopState) :=
  match openErr with
  | some err => Except.error err
  | none =>
    match origStat with
    | Except.error err => Except.error err
    | Except.ok origFi =>
      match watchErr with
      | some err => Except.error err
      | none =>
        let changes := NewFileChanges
        let fwSize := pos
        Except.ok (origFi,
          { Size := fwSize, prevSize := fwSize, pollPrevSize := fwSize,
            prevModTime := origFi.modTime,
            sys := { changes := changes, watched := true, log := [] } })

/-! ## `BlockUntilExists` (`inotify.go`) -/

/-- Which case of the `select` in `BlockUntilExists` fires: a receive
`evt, ok := <-events`, or `<-t.Dying()`. -/
inductive WaitSelect
  | recv (evt : Event) (ok : Bool)
  | dying
deriving DecidableEq, Repr

/-- How a call ends on a finite sequence of `select` outcomes: it returned a Go
`error` (`none` is `nil`), or it is still blocked in the `select`. -/
inductive Outcome
  | returned (err : Option Err)
  | blocked
deriving DecidableEq, Repr

/-- The `for` loop of `BlockUntilExists`. `abs` is `filepath.Abs`; the log
records one `recvEvent` for each receive from the event feed. -/
def waitLoop (abs : String → Except Err String) (Filename : String) :
    List WaitSelect → List Effect → Outcome × List Effect
  | [], log => (Outcome.blocked, log)
  | WaitSelect.dying :: _, log => (Outcome.returned (some Err.dying), log)
  | WaitSelect.recv evt ok :: rest, log =>
    let log := log ++ [Effect.recvEvent]
    if !ok then
      (Outcome.returned (some Err.watcherClosed), log)
    else
      match abs evt.Name with
      | Except.error err => (Outcome.returned (some err), log)
      | Except.ok evtName =>
        match abs Filename with
        | Except.error err => (Outcome.returned (some err), log)
        | Except.ok fwFilename =>
          if evtName = fwFilename then
            (Outcome.returned none, log)
          else
            waitLoop abs Filename rest log

/-- The go statement `defer RemoveWatchCreate(fw.Filename)`: the call runs when
the function returns, not while it is blocked. -/
def deferRemoveWatchCreate (r : Outcome × List Effect) : Outcome × List Effect :=
  match r.1 with
  | Outcome.returned err => (Outcome.returned err, r.2 ++ [Effect.removeWatchCreate])
  | Outcome.blocked => r

/-- `(*InotifyFileWatcher).BlockUntilExists`. The answers of `WatchCreate` and
of `os.Stat(fw.Filename)` and the sequence of `select` outcomes are arguments
(`WatchCreate`, `RemoveWatchCreate` and `Events` belong to the watch registry,
which is not part of the sources at hand: their calls are recorded). -/
def BlockUntilExists (abs : String → Except Err String) (Filename : String)
    (watchCreateErr : Option Err) (stat : Except Err FileInfo)
    (sels : List WaitSelect) : Outcome × List Effect :=
  let log := [Effect.watchCreate]
  match watchCreateErr with
  | some err => (Outcome.returned (some err), log)
  | none =>
    deferRemoveWatchCreate <|
      let log := log ++ [Effect.statPath]
      let err : Option Err :=
        match stat with
        | Except.ok _ => none
        | Except.error e => some e
      if !IsNotExist err then
        (Outcome.returned err, log)
      else
        waitLoop abs Filename sels log

/-! ## Input sequences used in the statements -/

/-- Size that the iteration on input `i` reads, when `i` is a timer tick whose
path stat succeeds with the identity of `origFi`, or a received event with
`Chmod` or `Write` and neither `Remove` nor `Rename` whose handle stat
succeeds; `none` for every other input. -/
def Input.observedSize (origFi : FileInfo) (i : Input) : Option Int :=
  match i.sel with
  | Select.tick =>
    match i.pathStat with
    | Except.ok fi => if SameFile origFi fi then some fi.size else none
    | Except.error _ => none
  | Select.recv evt ok =>
    if ok = true ∧ evt.Op &&& Remove ≠ Remove ∧ evt.Op &&& Rename ≠ Rename ∧
        (evt.Op &&& Chmod = Chmod ∨ evt.Op &&& Write = Write) then
      match i.handleStat with
      | Except.ok fi => some fi.size
      | Except.error _ => none
    else none
  | Select.dying => none

/-- Every input of the sequence observes a size, the first one is at least `lo`
and the sizes never decrease along the sequence. -/
def nonDecreasingFrom (origFi : FileInfo) : Int → List Input → Bool
  | _, [] => true
  | lo, i :: rest =>
    match i.observedSize origFi with
    | some s => decide (lo ≤ s) && nonDecreasingFrom origFi s rest
    | none => false

/-- Shape of a terminal classification as deleted, seen from the state `st`
before the iteration: the iteration returned, the watch is released, and the
log grew by an optional stat call followed by `RemoveWatch`, the Modified send,
the grace sleep and the Deleted send, in this order. -/
def DeletedExit (st : LoopState) (r : LoopState × Status) : Prop :=
  r.2 = Status.returned ∧ r.1.sys.watched = false ∧
    ∃ pre : List Effect,
      (pre = [] ∨ pre = [Effect.statPath] ∨ pre = [Effect.statHandle]) ∧
      r.1.sys.log = st.sys.log ++ pre ++ [Effect.removeWatch, Effect.send Slot.Modified,
        Effect.sleep 100, Effect.send Slot.Deleted]

/-- Effect of a branch on the watch registration, seen from the state `st`
before it: one more `RemoveWatch` call and a released watch when it returns,
no call and the registration as before when it goes on or exits the process. -/
def WatchEffect (st : LoopState) (r : LoopState × Status) : Prop :=
  r.1.sys.log.count Effect.removeWatch
      = st.sys.log.count Effect.removeWatch + (if r.2 = Status.returned then 1 else 0) ∧
    (r.2 = Status.returned → r.1.sys.watched = false) ∧
    (r.2 ≠ Status.returned → r.1.sys.watched = st.sys.watched)

/-! ## Properties of the notification channel -/

theorem sendOnlyIfEmpty_cap (ch : Chan) : (sendOnlyIfEmpty ch).cap = ch.cap := by
  unfold sendOnlyIfEmpty
  split <;> rfl

theorem sendOnlyIfEmpty_pending (ch : Chan) (hc : ch.cap = 1) (hb : ch.buf.length ≤ 1) :
    (sendOnlyIfEmpty ch).buf.length = 1 := by
  unfold sendOnlyIfEmpty
  split
  · simp only [List.length_append, List.length_singleton]; omega
  · omega

theorem sendOnlyIfEmpty_full (ch : Chan) (hf : ch.buf.length = ch.cap) :
    sendOnlyIfEmpty ch = ch := by
  unfold sendOnlyIfEmpty
  rw [if_neg (by omega)]

theorem sendOnlyIfEmpty_idem (ch : Chan) (hc : ch.cap = 1) (hb : ch.buf.length ≤ 1) :
    sendOnlyIfEmpty (sendOnlyIfEmpty ch) = sendOnlyIfEmpty ch := by
  apply sendOnlyIfEmpty_full
  rw [sendOnlyIfEmpty_cap, sendOnlyIfEmpty_pending ch hc hb, hc]

theorem NotifyModified_valid (s : Sys) (hv : s.changes.Valid) :
    (NotifyModified s).changes.Valid := by
  obtain ⟨⟨hc, hb⟩, ht, hd⟩ := hv
  refine ⟨⟨?_, ?_⟩, ht, hd⟩
  · simpa [NotifyModified, sendOnlyIfEmpty_cap] using hc
  · simpa [NotifyModified] using le_of_eq (sendOnlyIfEmpty_pending _ hc hb)

theorem NotifyModified_idem (s : Sys) (hv : s.changes.Valid) :
    (NotifyModified (NotifyModified s)).changes = (NotifyModified s).changes := by
  obtain ⟨⟨hc, hb⟩, -, -⟩ := hv
  simp [NotifyModified, sendOnlyIfEmpty_idem _ hc hb]

theorem NotifyModified_iterate (s : Sys) (hv : s.changes.Valid) (n : Nat) :
    (NotifyModified^[n + 1] s).changes = (NotifyModified s).changes ∧
      (NotifyModified^[n + 1] s).changes.Valid := by
  induction n with
  | zero => exact ⟨rfl, NotifyModified_valid s hv⟩
  | succ k ih =>
    rw [Function.iterate_succ_apply']
    obtain ⟨he, hval⟩ := ih
    refine ⟨?_, NotifyModified_valid _ hval⟩
    have h1 : (NotifyModified (NotifyModified^[k + 1] s)).changes
        = (NotifyModified (NotifyModified s)).changes := by
      simp only [NotifyModified, he]
    rw [h1, NotifyModified_idem s hv]

/-- C1. Coalescing: on a channel state of a session (every slot of capacity
one), `n ≥ 1` calls of `NotifyModified` without a read in between leave the
same channel state as one call, with exactly one token pending in the Modified
slot and the other two slots untouched; a call on a slot that already holds a
token changes nothing. -/
theorem NotifyModified_coalesces (s : Sys) (hv : s.changes.Valid) (n : Nat) (hn : 1 ≤ n) :
    (NotifyModified^[n] s).changes = (NotifyModified s).changes ∧
      (NotifyModified^[n] s).changes.Modified.pending = 1 ∧
      (NotifyModified^[n] s).changes.Truncated = s.changes.Truncated ∧
      (NotifyModified^[n] s).changes.Deleted = s.changes.Deleted ∧
      (s.changes.Modified.pending = 1 → (NotifyModified s).changes = s.changes) := by
  obtain ⟨k, rfl⟩ : ∃ k, n = k + 1 := ⟨n - 1, by omega⟩
  have he := (NotifyModified_iterate s hv k).1
  obtain ⟨⟨hc, hb⟩, -, -⟩ := hv
  refine ⟨he, ?_, ?_, ?_, ?_⟩
  · rw [he]
    exact sendOnlyIfEmpty_pending _ hc hb
  · rw [he]; rfl
  · rw [he]; rfl
  · intro hp
    have hfull : sendOnlyIfEmpty s.changes.Modified = s.changes.Modified :=
      sendOnlyIfEmpty_full _ (by rw [hc]; exact hp)
    simp [NotifyModified, hfull]

/-- Witness of C1: three calls on the channels made by `NewFileChanges`. -/
theorem NotifyModified_coalesces_witness :
    (NotifyModified^[3] ⟨NewFileChanges, true, []⟩).changes
        = (NotifyModified ⟨NewFileChanges, true, []⟩).changes ∧
      (NotifyModified^[3] ⟨NewFileChanges, true, []⟩).changes.Modified.pending = 1 :=
  have h := NotifyModified_coalesces ⟨NewFileChanges, true, []⟩ (by decide) 3 (by decide)
  ⟨h.1, h.2.1⟩

/-- C2. `NotifyTruncated` attempts the Modified send, sleeps 100 ms and only
then attempts the Truncated send; `NotifyDeleted` does the same with the
Deleted slot. At the moment of the destructive send the Modified token is
already pending and the destructive slot is still as before the call. On
return Modified and the destructive token are pending and the other
destructive slot is unchanged. -/
theorem NotifyTruncated_NotifyDeleted_order (s : Sys) (hv : s.changes.Valid) :
    ((NotifyTruncated s).log
        = s.log ++ [Effect.send Slot.Modified, Effect.sleep 100, Effect.send Slot.Truncated] ∧
      NotifyTruncated s = sendTruncated (Sleep 100 (NotifyModified s)) ∧
      (Sleep 100 (NotifyModified s)).changes.Modified.pending = 1 ∧
      (Sleep 100 (NotifyModified s)).changes.Truncated = s.changes.Truncated ∧
      (NotifyTruncated s).changes.Modified.pending = 1 ∧
      (NotifyTruncated s).changes.Truncated.pending = 1 ∧
      (NotifyTruncated s).changes.Deleted = s.changes.Deleted) ∧
    ((NotifyDeleted s).log
        = s.log ++ [Effect.send Slot.Modified, Effect.sleep 100, Effect.send Slot.Deleted] ∧
      NotifyDeleted s = sendDeleted (Sleep 100 (NotifyModified s)) ∧
      (Sleep 100 (NotifyModified s)).changes.Modified.pending = 1 ∧
      (Sleep 100 (NotifyModified s)).changes.Deleted = s.changes.Deleted ∧
      (NotifyDeleted s).changes.Modified.pending = 1 ∧
      (NotifyDeleted s).changes.Deleted.pending = 1 ∧
      (NotifyDeleted s).changes.Truncated = s.changes.Truncated) := by
  obtain ⟨⟨hc, hb⟩, ⟨htc, htb⟩, ⟨hdc, hdb⟩⟩ := hv
  have hm := sendOnlyIfEmpty_pending _ hc hb
  have ht := sendOnlyIfEmpty_pending _ htc htb
  have hd := sendOnlyIfEmpty_pending _ hdc hdb
  refine ⟨⟨?_, rfl, hm, rfl, hm, ht, rfl⟩, ⟨?_, rfl, hm, rfl, hm, hd, rfl⟩⟩
  · simp [NotifyTruncated, sendTruncated, Sleep, NotifyModified]
  · simp [NotifyDeleted, sendDeleted, Sleep, NotifyModified]

/-- Witness of C2: the channels made by `NewFileChanges`. -/
theorem NotifyTruncated_NotifyDeleted_order_witness :
    (NotifyTruncated ⟨NewFileChanges, true, []⟩).log
        = [Effect.send Slot.Modified, Effect.sleep 100, Effect.send Slot.Truncated] ∧
      (NotifyDeleted ⟨NewFileChanges, true, []⟩).log
        = [Effect.send Slot.Modified, Effect.sleep 100, Effect.send Slot.Deleted] :=
  have h := NotifyTruncated_NotifyDeleted_order ⟨NewFileChanges, true, []⟩ (by decide)
  ⟨h.1.1, h.2.1⟩

/-! ## Properties of the reconciliation loop: single iterations -/

theorem iteration_tick (windows : Bool) (origFi : FileInfo) (st : LoopState)
    (pathStat handleStat : Except Err FileInfo) :
    iteration windows origFi st ⟨Select.tick, pathStat, handleStat⟩
      = pollBranch windows origFi st pathStat := by
  simp [iteration, switchBody]

theorem NotifyTruncated_log (s : Sys) :
    (NotifyTruncated s).log
      = s.log ++ [Effect.send Slot.Modified, Effect.sleep 100, Effect.send Slot.Truncated] := by
  simp [NotifyTruncated, sendTruncated, Sleep, NotifyModified]

theorem NotifyDeleted_log (s : Sys) :
    (NotifyDeleted s).log
      = s.log ++ [Effect.send Slot.Modified, Effect.sleep 100, Effect.send Slot.Deleted] := by
  simp [NotifyDeleted, sendDeleted, Sleep, NotifyModified]

/-- C3. Poll path, truncation: on a tick whose stat succeeds with the recorded
identity and a size `s` with `0 ≤ s < pollPrevSize`, the iteration calls
`NotifyTruncated` (Modified, then Truncated become pending), sets
`pollPrevSize` to `s`, leaves `prevModTime` and `prevSize` unchanged, does not
look at the modification time, and the loop goes on. -/
theorem poll_truncated (windows : Bool) (origFi fi : FileInfo) (st : LoopState)
    (handleStat : Except Err FileInfo)
    (hv : st.sys.changes.Valid) (hid : SameFile origFi fi = true)
    (h0 : 0 ≤ fi.size) (hlt : fi.size < st.pollPrevSize) :
    (iteration windows origFi st ⟨Select.tick, Except.ok fi, handleStat⟩).2 = Status.running ∧
    (iteration windows origFi st ⟨Select.tick, Except.ok fi, handleStat⟩).1.sys
      = NotifyTruncated { st.sys with log := st.sys.log ++ [Effect.statPath] } ∧
    (iteration windows origFi st ⟨Select.tick, Except.ok fi, handleStat⟩).1.sys.log
      = st.sys.log ++ [Effect.statPath, Effect.send Slot.Modified, Effect.sleep 100,
          Effect.send Slot.Truncated] ∧
    (iteration windows origFi st
      ⟨Select.tick, Except.ok fi, handleStat⟩).1.sys.changes.Modified.pending = 1 ∧
    (iteration windows origFi st
      ⟨Select.tick, Except.ok fi, handleStat⟩).1.sys.changes.Truncated.pending = 1 ∧
    (iteration windows origFi st ⟨Select.tick, Except.ok fi, handleStat⟩).1.pollPrevSize
      = fi.size ∧
    (iteration windows origFi st ⟨Select.tick, Except.ok fi, handleStat⟩).1.prevModTime
      = st.prevModTime ∧
    (iteration windows origFi st ⟨Select.tick, Except.ok fi, handleStat⟩).1.prevSize
      = st.prevSize ∧
    (∀ mt : Int,
      iteration windows origFi st ⟨Select.tick, Except.ok { fi with modTime := mt }, handleStat⟩
        = iteration windows origFi st ⟨Select.tick, Except.ok fi, handleStat⟩) := by
  have hpos : 0 < st.pollPrevSize := by omega
  have hid2 : ∀ mt : Int, SameFile origFi { fi with modTime := mt } = true := fun _ => hid
  have key : ∀ mt : Int,
      iteration windows origFi st ⟨Select.tick, Except.ok { fi with modTime := mt }, handleStat⟩
        = ({ st with
              Size := fi.size
              pollPrevSize := fi.size
              sys := NotifyTruncated { st.sys with log := st.sys.log ++ [Effect.statPath] } },
            Status.running) := by
    intro mt
    rw [iteration_tick]
    simp [pollBranch, hid2 mt, hpos, hlt]
  have key0 := key fi.modTime
  simp only at key0
  obtain ⟨hm, ht, -⟩ := hv
  refine ⟨by rw [key0], by rw [key0], ?_, ?_, ?_, by rw [key0], by rw [key0], by rw [key0], ?_⟩
  · rw [key0]
    simp [NotifyTruncated_log]
  · rw [key0]
    exact sendOnlyIfEmpty_pending _ hm.1 hm.2
  · rw [key0]
    exact sendOnlyIfEmpty_pending _ ht.1 ht.2
  · intro mt
    rw [key mt, key0]

/-- Witness of C3: `pollPrevSize` 100, the tick observes size 40. -/
theorem poll_truncated_witness :
    (iteration false ⟨100, 7, 1, 2⟩ ⟨100, 100, 100, 7, ⟨NewFileChanges, true, []⟩⟩
        ⟨Select.tick, Except.ok ⟨40, 9, 1, 2⟩, Except.error Err.notExist⟩).1.sys.changes.Modified.pending
        = 1 ∧
      (iteration false ⟨100, 7, 1, 2⟩ ⟨100, 100, 100, 7, ⟨NewFileChanges, true, []⟩⟩
        ⟨Select.tick, Except.ok ⟨40, 9, 1, 2⟩, Except.error Err.notExist⟩).1.sys.changes.Truncated.pending
        = 1 ∧
      (iteration false ⟨100, 7, 1, 2⟩ ⟨100, 100, 100, 7, ⟨NewFileChanges, true, []⟩⟩
        ⟨Select.tick, Except.ok ⟨40, 9, 1, 2⟩, Except.error Err.notExist⟩).1.pollPrevSize = 40 :=
  have h := poll_truncated false ⟨100, 7, 1, 2⟩ ⟨40, 9, 1, 2⟩
    ⟨100, 100, 100, 7, ⟨NewFileChanges, true, []⟩⟩ (Except.error Err.notExist)
    (by decide) (by decide) (by decide) (by decide)
  ⟨h.2.2.2.1, h.2.2.2.2.1, h.2.2.2.2.2.1⟩

/-- Counterexample to C4 as stated: a session started at offset 0
(`pollPrevSize = 0`); a tick observes the same file grown to size 10 with an
unchanged modification time. `NotifyModified` is not called and no Modified
token is pending; and the modification time is compared on that tick, since
the same observation with another timestamp does signal Modified. -/
theorem poll_grown_from_zero_counterexample :
    SameFile ⟨0, 7, 1, 2⟩ ⟨10, 7, 1, 2⟩ = true ∧ (0 : Int) < 10 ∧
      (iteration false ⟨0, 7, 1, 2⟩ ⟨0, 0, 0, 7, ⟨NewFileChanges, true, []⟩⟩
        ⟨Select.tick, Except.ok ⟨10, 7, 1, 2⟩, Except.ok ⟨10, 7, 1, 2⟩⟩)
        = (⟨10, 0, 10, 7, ⟨NewFileChanges, true, [Effect.statPath]⟩⟩, Status.running) ∧
      (iteration false ⟨0, 7, 1, 2⟩ ⟨0, 0, 0, 7, ⟨NewFileChanges, true, []⟩⟩
        ⟨Select.tick, Except.ok ⟨10, 7, 1, 2⟩,
          Except.ok ⟨10, 7, 1, 2⟩⟩).1.sys.changes.Modified.pending = 0 ∧
      (iteration false ⟨0, 7, 1, 2⟩ ⟨0, 0, 0, 7, ⟨NewFileChanges, true, []⟩⟩
        ⟨Select.tick, Except.ok ⟨10, 8, 1, 2⟩,
          Except.ok ⟨10, 7, 1, 2⟩⟩).1.sys.changes.Modified.pending = 1 := by
  decide

/-- C4, amended. Poll path, growth: on a tick whose stat succeeds with the
recorded identity and a size `s > pollPrevSize ≥ 0`, the loop goes on with
`pollPrevSize = s` and never touches the Truncated slot. If `pollPrevSize > 0`
it calls `NotifyModified` (Modified pending) without looking at the
modification time. If `pollPrevSize = 0` it compares the modification time
instead: `NotifyModified` is called exactly when the timestamp differs from
the stored one, and the stored timestamp becomes the observed one. -/
theorem poll_grown (windows : Bool) (origFi fi : FileInfo) (st : LoopState)
    (handleStat : Except Err FileInfo)
    (hv : st.sys.changes.Valid) (hid : SameFile origFi fi = true)
    (h0 : 0 ≤ st.pollPrevSize) (hgt : st.pollPrevSize < fi.size) :
    ∃ st1 : LoopState,
      iteration windows origFi st ⟨Select.tick, Except.ok fi, handleStat⟩
        = (st1, Status.running) ∧
      st1.pollPrevSize = fi.size ∧
      st1.prevSize = st.prevSize ∧
      st1.sys.changes.Truncated = st.sys.changes.Truncated ∧
      st1.sys.changes.Deleted = st.sys.changes.Deleted ∧
      (0 < st.pollPrevSize →
        st1.sys = NotifyModified { st.sys with log := st.sys.log ++ [Effect.statPath] } ∧
        st1.sys.log = st.sys.log ++ [Effect.statPath, Effect.send Slot.Modified] ∧
        st1.sys.changes.Modified.pending = 1 ∧
        st1.prevModTime = st.prevModTime ∧
        ∀ mt : Int,
          iteration windows origFi st
              ⟨Select.tick, Except.ok { fi with modTime := mt }, handleStat⟩
            = (st1, Status.running)) ∧
      (st.pollPrevSize = 0 →
        st1.prevModTime = fi.modTime ∧
        (fi.modTime ≠ st.prevModTime →
          st1.sys = NotifyModified { st.sys with log := st.sys.log ++ [Effect.statPath] } ∧
          st1.sys.log = st.sys.log ++ [Effect.statPath, Effect.send Slot.Modified] ∧
          st1.sys.changes.Modified.pending = 1) ∧
        (fi.modTime = st.prevModTime →
          st1.sys = { st.sys with log := st.sys.log ++ [Effect.statPath] } ∧
          st1.sys.changes.Modified = st.sys.changes.Modified)) := by
  obtain ⟨hm, -, -⟩ := hv
  have hpend := sendOnlyIfEmpty_pending _ hm.1 hm.2
  have hngt : ¬ fi.size < st.pollPrevSize := by omega
  rcases lt_or_eq_of_le h0 with hpos | hzero
  · -- `pollPrevSize > 0`: the "File got bigger?" test succeeds
    have hne : st.pollPrevSize ≠ 0 := by omega
    have hid2 : ∀ mt : Int, SameFile origFi { fi with modTime := mt } = true := fun _ => hid
    have key : ∀ mt : Int,
        iteration windows origFi st
            ⟨Select.tick, Except.ok { fi with modTime := mt }, handleStat⟩
          = ({ st with
                Size := fi.size
                pollPrevSize := fi.size
                sys := NotifyModified { st.sys with log := st.sys.log ++ [Effect.statPath] } },
              Status.running) := by
      intro mt
      rw [iteration_tick]
      simp [pollBranch, hid2 mt, hpos, hgt, hngt]
    have key0 := key fi.modTime
    simp only at key0
    refine ⟨_, key0, rfl, rfl, rfl, rfl, ?_, ?_⟩
    · intro _
      refine ⟨rfl, ?_, hpend, rfl, key⟩
      simp [NotifyModified]
    · intro hz
      exact absurd hz hne
  · -- `pollPrevSize = 0`: both size tests fail, the timestamps are compared
    have hnpos : ¬ 0 < st.pollPrevSize := by omega
    by_cases hmt : fi.modTime = st.prevModTime
    · refine ⟨{ st with
                  Size := fi.size
                  pollPrevSize := fi.size
                  sys := { st.sys with log := st.sys.log ++ [Effect.statPath] } },
        ?_, rfl, rfl, rfl, rfl, ?_, ?_⟩
      · rw [iteration_tick]
        simp [pollBranch, hid, hnpos, hmt]
      · intro hp
        exact absurd hp hnpos
      · intro _
        exact ⟨hmt.symm, fun hne => absurd hmt hne, fun _ => ⟨rfl, rfl⟩⟩
    · refine ⟨{ st with
                  Size := fi.size
                  pollPrevSize := fi.size
                  prevModTime := fi.modTime
                  sys := NotifyModified { st.sys with log := st.sys.log ++ [Effect.statPath] } },
        ?_, rfl, rfl, rfl, rfl, ?_, ?_⟩
      · rw [iteration_tick]
        simp [pollBranch, hid, hnpos, hmt]
      · intro hp
        exact absurd hp hnpos
      · intro _
        refine ⟨rfl, fun _ => ⟨rfl, ?_, hpend⟩, fun he => absurd he hmt⟩
        simp [NotifyModified]

/-- Witness of C4 amended: `pollPrevSize` 100, the tick observes size 150. -/
theorem poll_grown_witness :
    ∃ st1 : LoopState,
      iteration false ⟨100, 7, 1, 2⟩ ⟨100, 100, 100, 7, ⟨NewFileChanges, true, []⟩⟩
          ⟨Select.tick, Except.ok ⟨150, 9, 1, 2⟩, Except.error Err.notExist⟩
        = (st1, Status.running) ∧
      st1.pollPrevSize = 150 ∧ st1.sys.changes.Modified.pending = 1 :=
  have h := poll_grown false ⟨100, 7, 1, 2⟩ ⟨150, 9, 1, 2⟩
    ⟨100, 100, 100, 7, ⟨NewFileChanges, true, []⟩⟩ (Except.error Err.notExist)
    (by decide) (by decide) (by decide) (by decide)
  h.elim fun st1 h1 => ⟨st1, h1.1, h1.2.1, (h1.2.2.2.2.2.1 (by decide)).2.2.1⟩

/-- C5. Event path, write: for an event whose op contains `Write` and neither
`Remove` nor `Rename`, when the handle stat succeeds with size `s ≥ 0` and
`prevSize ≥ 0`, the iteration calls `NotifyTruncated` exactly when
`s < prevSize` and otherwise only `NotifyModified` (also when `s = prevSize`);
`prevSize` becomes `s`, `pollPrevSize` and `prevModTime` are unchanged, and the
loop goes on. -/
theorem event_write (windows : Bool) (origFi fi : FileInfo) (st : LoopState)
    (evt : Event) (pathStat : Except Err FileInfo)
    (hv : st.sys.changes.Valid)
    (hw : evt.Op &&& Write = Write) (hrm : evt.Op &&& Remove ≠ Remove)
    (hrn : evt.Op &&& Rename ≠ Rename)
    (h0 : 0 ≤ fi.size) (hp : 0 ≤ st.prevSize) :
    ∃ st1 : LoopState,
      iteration windows origFi st ⟨Select.recv evt true, pathStat, Except.ok fi⟩
        = (st1, Status.running) ∧
      st1.prevSize = fi.size ∧
      st1.pollPrevSize = st.pollPrevSize ∧
      st1.prevModTime = st.prevModTime ∧
      st1.sys.changes.Modified.pending = 1 ∧
      st1.sys.changes.Deleted = st.sys.changes.Deleted ∧
      (Effect.send Slot.Truncated ∈ st1.sys.log.drop st.sys.log.length
        ↔ fi.size < st.prevSize) ∧
      (fi.size < st.prevSize →
        st1.sys = NotifyTruncated { st.sys with log := st.sys.log ++ [Effect.statHandle] } ∧
        st1.sys.log = st.sys.log ++ [Effect.statHandle, Effect.send Slot.Modified,
          Effect.sleep 100, Effect.send Slot.Truncated] ∧
        st1.sys.changes.Truncated.pending = 1) ∧
      (st.prevSize ≤ fi.size →
        st1.sys = NotifyModified { st.sys with log := st.sys.log ++ [Effect.statHandle] } ∧
        st1.sys.log = st.sys.log ++ [Effect.statHandle, Effect.send Slot.Modified] ∧
        st1.sys.changes.Truncated = st.sys.changes.Truncated) := by
  obtain ⟨hm, ht, -⟩ := hv
  have hpend := sendOnlyIfEmpty_pending _ hm.1 hm.2
  have htpend := sendOnlyIfEmpty_pending _ ht.1 ht.2
  by_cases hlt : fi.size < st.prevSize
  · have hpos : 0 < st.prevSize := by omega
    have hnle : ¬ st.prevSize ≤ fi.size := by omega
    have hlog : (NotifyTruncated { st.sys with log := st.sys.log ++ [Effect.statHandle] }).log
        = st.sys.log ++ [Effect.statHandle, Effect.send Slot.Modified,
          Effect.sleep 100, Effect.send Slot.Truncated] := by
      simp [NotifyTruncated_log]
    refine ⟨{ st with
                Size := fi.size
                prevSize := fi.size
                sys := NotifyTruncated { st.sys with log := st.sys.log ++ [Effect.statHandle] } },
      ?_, rfl, rfl, rfl, hpend, rfl, ?_, ?_, ?_⟩
    · simp [iteration, switchBody, writeBranch, hw, hrm, hrn, hpos, hlt]
    · simp only [hlog, List.drop_left]
      simp [hlt]
    · intro _
      exact ⟨rfl, hlog, htpend⟩
    · intro hle
      exact absurd hle hnle
  · have hle : st.prevSize ≤ fi.size := by omega
    have hlog : (NotifyModified { st.sys with log := st.sys.log ++ [Effect.statHandle] }).log
        = st.sys.log ++ [Effect.statHandle, Effect.send Slot.Modified] := by
      simp [NotifyModified]
    refine ⟨{ st with
                Size := fi.size
                prevSize := fi.size
                sys := NotifyModified { st.sys with log := st.sys.log ++ [Effect.statHandle] } },
      ?_, rfl, rfl, rfl, hpend, rfl, ?_, ?_, ?_⟩
    · simp [iteration, switchBody, writeBranch, hw, hrm, hrn, hlt]
    · simp only [hlog, List.drop_left]
      simp [hlt]
    · intro h
      exact absurd h hlt
    · intro _
      exact ⟨rfl, hlog, rfl⟩

/-- Witness of C5: `prevSize` 100, a write event, the handle reports size 150. -/
theorem event_write_witness :
    ∃ st1 : LoopState,
      iteration false ⟨100, 7, 1, 2⟩ ⟨100, 100, 100, 7, ⟨NewFileChanges, true, []⟩⟩
          ⟨Select.recv ⟨"app.log", Write⟩ true, Except.error Err.notExist,
            Except.ok ⟨150, 9, 1, 2⟩⟩
        = (st1, Status.running) ∧
      st1.prevSize = 150 ∧ st1.sys.changes.Modified.pending = 1 ∧
      st1.sys.changes.Truncated = Chan.make 1 :=
  have h := event_write false ⟨100, 7, 1, 2⟩ ⟨150, 9, 1, 2⟩
    ⟨100, 100, 100, 7, ⟨NewFileChanges, true, []⟩⟩ ⟨"app.log", Write⟩
    (Except.error Err.notExist) (by decide) (by decide) (by decide) (by decide)
    (by decide) (by decide)
  h.elim fun st1 h1 =>
    ⟨st1, h1.1, h1.2.1, h1.2.2.2.2.1, (h1.2.2.2.2.2.2.2.2 (by decide)).2.2⟩

/-! ## Properties of the reconciliation loop: runs -/

theorem nonDecreasingFrom_take (origFi : FileInfo) :
    ∀ (inputs : List Input) (lo : Int) (k : Nat),
      nonDecreasingFrom origFi lo inputs = true →
      nonDecreasingFrom origFi lo (inputs.take k) = true := by
  intro inputs
  induction inputs with
  | nil => intro lo k h; simp [nonDecreasingFrom]
  | cons i rest ih =>
    intro lo k h
    cases k with
    | zero => simp [nonDecreasingFrom]
    | succ k =>
      simp only [List.take_succ_cons, nonDecreasingFrom] at h ⊢
      cases hobs : i.observedSize origFi with
      | none => simp [hobs] at h
      | some s =>
        simp only [hobs, Bool.and_eq_true, decide_eq_true_eq] at h ⊢
        exact ⟨h.1, ih s k h.2⟩

/-- One iteration on an input that observes a size `s` not below either
baseline: the loop goes on, both baselines stay at most `s`, the Truncated slot
is untouched and nothing but stat calls and Modified sends is logged. -/
theorem iteration_observed (windows : Bool) (origFi : FileInfo) (st : LoopState)
    (i : Input) (s : Int) (hobs : i.observedSize origFi = some s)
    (he : st.prevSize ≤ s) (hpoll : st.pollPrevSize ≤ s) :
    ∃ st1 : LoopState,
      iteration windows origFi st i = (st1, Status.running) ∧
      st1.prevSize ≤ s ∧ st1.pollPrevSize ≤ s ∧
      st1.sys.changes.Truncated = st.sys.changes.Truncated ∧
      (Effect.send Slot.Truncated ∈ st1.sys.log → Effect.send Slot.Truncated ∈ st.sys.log) := by
  obtain ⟨sel, pathStat, handleStat⟩ := i
  cases sel with
  | dying => simp [Input.observedSize] at hobs
  | tick =>
    cases pathStat with
    | error e => simp [Input.observedSize] at hobs
    | ok fi =>
      by_cases hid : SameFile origFi fi = true
      · simp only [Input.observedSize, hid, if_true, Option.some.injEq] at hobs
        have hn1 : ¬ (st.pollPrevSize > 0 ∧ st.pollPrevSize > fi.size) := by
          intro h; omega
        rw [iteration_tick]
        simp only [pollBranch, hid, Bool.not_true, Bool.false_eq_true, if_false, hn1]
        split_ifs <;>
          refine ⟨_, rfl, ?_, ?_, ?_, ?_⟩ <;>
          first
            | rfl
            | (simp only []; omega)
            | simp [NotifyModified]
      · simp [Input.observedSize, hid] at hobs
  | recv evt ok =>
    simp only [Input.observedSize] at hobs
    split_ifs at hobs with hc
    obtain ⟨hok, hrm, hrn, hcw⟩ := hc
    subst hok
    cases handleStat with
    | error e => simp at hobs
    | ok fi =>
      simp only [Option.some.injEq] at hobs
      have hn1 : ¬ (st.prevSize > 0 ∧ st.prevSize > fi.size) := by
        intro h; omega
      have hbr : iteration windows origFi st ⟨Select.recv evt true, pathStat, Except.ok fi⟩
          = writeBranch st (Except.ok fi) := by
        rcases hcw with hch | hwr
        · simp [iteration, switchBody, hrm, hrn, hch]
        · simp [iteration, switchBody, hrm, hrn, hwr]
      rw [hbr]
      simp only [writeBranch, hn1, if_false]
      refine ⟨_, rfl, ?_, ?_, rfl, ?_⟩
      · simp only []; omega
      · simp only []; omega
      · simp [NotifyModified]

theorem runLoop_no_truncation (windows : Bool) (origFi : FileInfo) :
    ∀ (inputs : List Input) (lo : Int) (st : LoopState),
      st.prevSize ≤ lo → st.pollPrevSize ≤ lo →
      nonDecreasingFrom origFi lo inputs = true →
      (runLoop windows origFi st inputs).2 = Status.running ∧
      (runLoop windows origFi st inputs).1.sys.changes.Truncated = st.sys.changes.Truncated ∧
      (Effect.send Slot.Truncated ∈ (runLoop windows origFi st inputs).1.sys.log →
        Effect.send Slot.Truncated ∈ st.sys.log) := by
  intro inputs
  induction inputs with
  | nil => intro lo st _ _ _; exact ⟨rfl, rfl, id⟩
  | cons i rest ih =>
    intro lo st he hpoll hseq
    simp only [nonDecreasingFrom] at hseq
    cases hobs : i.observedSize origFi with
    | none => simp [hobs] at hseq
    | some s =>
      simp only [hobs, Bool.and_eq_true, decide_eq_true_eq] at hseq
      obtain ⟨st1, hit, he1, hpoll1, htr, hlog⟩ :=
        iteration_observed windows origFi st i s hobs (by omega) (by omega)
      obtain ⟨hrun, htr2, hlog2⟩ := ih s st1 he1 hpoll1 hseq.2
      simp only [runLoop, hit]
      exact ⟨hrun, htr2.trans htr, fun h => hlog (hlog2 h)⟩

/-- C6. No false truncation: a session started at any offset `p` and run on a
finite sequence of timer ticks and write/metadata-change events whose stats all
succeed, with the identity unchanged and observed sizes non-decreasing from at
least `p`, is still running after every prefix of the sequence, has never
attempted a send on the Truncated slot, and the Truncated slot is empty. -/
theorem no_false_truncation (windows : Bool) (origFi : FileInfo) (p : Int)
    (st0 : LoopState) (inputs : List Input)
    (hstart : ChangeEvents none (Except.ok origFi) none p = Except.ok (origFi, st0))
    (hseq : nonDecreasingFrom origFi p inputs = true) (k : Nat) :
    (runLoop windows origFi st0 (inputs.take k)).2 = Status.running ∧
      Effect.send Slot.Truncated ∉ (runLoop windows origFi st0 (inputs.take k)).1.sys.log ∧
      (runLoop windows origFi st0 (inputs.take k)).1.sys.changes.Truncated.pending = 0 := by
  simp only [ChangeEvents, Except.ok.injEq, Prod.mk.injEq, true_and] at hstart
  subst hstart
  obtain ⟨hrun, htr, hlog⟩ :=
    runLoop_no_truncation windows origFi (inputs.take k) p
      { Size := p, prevSize := p, pollPrevSize := p, prevModTime := origFi.modTime,
        sys := { changes := NewFileChanges, watched := true, log := [] } }
      (le_refl p) (le_refl p) (nonDecreasingFrom_take origFi inputs p k hseq)
  refine ⟨hrun, ?_, ?_⟩
  · intro h
    simpa using hlog h
  · rw [htr]; rfl

/-- Witness of C6: start offset 100; a tick sees 100, a write event 150, a tick
150, a metadata-change event 150, a tick 200. -/
theorem no_false_truncation_witness :
    (runLoop false ⟨120, 7, 1, 2⟩ ⟨100, 100, 100, 7, ⟨NewFileChanges, true, []⟩⟩
        ([⟨Select.tick, Except.ok ⟨100, 7, 1, 2⟩, Except.ok ⟨100, 7, 1, 2⟩⟩,
          ⟨Select.recv ⟨"app.log", Write⟩ true, Except.ok ⟨150, 8, 1, 2⟩,
            Except.ok ⟨150, 8, 1, 2⟩⟩,
          ⟨Select.tick, Except.ok ⟨150, 8, 1, 2⟩, Except.ok ⟨150, 8, 1, 2⟩⟩,
          ⟨Select.recv ⟨"app.log", Chmod⟩ true, Except.ok ⟨150, 9, 1, 2⟩,
            Except.ok ⟨150, 9, 1, 2⟩⟩,
          ⟨Select.tick, Except.ok ⟨200, 9, 1, 2⟩, Except.ok ⟨200, 9, 1, 2⟩⟩].take 5)).2
        = Status.running ∧
      Effect.send Slot.Truncated ∉
        (runLoop false ⟨120, 7, 1, 2⟩ ⟨100, 100, 100, 7, ⟨NewFileChanges, true, []⟩⟩
          ([⟨Select.tick, Except.ok ⟨100, 7, 1, 2⟩, Except.ok ⟨100, 7, 1, 2⟩⟩,
            ⟨Select.recv ⟨"app.log", Write⟩ true, Except.ok ⟨150, 8, 1, 2⟩,
              Except.ok ⟨150, 8, 1, 2⟩⟩,
            ⟨Select.tick, Except.ok ⟨150, 8, 1, 2⟩, Except.ok ⟨150, 8, 1, 2⟩⟩,
            ⟨Select.recv ⟨"app.log", Chmod⟩ true, Except.ok ⟨150, 9, 1, 2⟩,
              Except.ok ⟨150, 9, 1, 2⟩⟩,
            ⟨Select.tick, Except.ok ⟨200, 9, 1, 2⟩,
              Except.ok ⟨200, 9, 1, 2⟩⟩].take 5)).1.sys.log :=
  have h := no_false_truncation false ⟨120, 7, 1, 2⟩ 100
    ⟨100, 100, 100, 7, ⟨NewFileChanges, true, []⟩⟩
    [⟨Select.tick, Except.ok ⟨100, 7, 1, 2⟩, Except.ok ⟨100, 7, 1, 2⟩⟩,
      ⟨Select.recv ⟨"app.log", Write⟩ true, Except.ok ⟨150, 8, 1, 2⟩,
        Except.ok ⟨150, 8, 1, 2⟩⟩,
      ⟨Select.tick, Except.ok ⟨150, 8, 1, 2⟩, Except.ok ⟨150, 8, 1, 2⟩⟩,
      ⟨Select.recv ⟨"app.log", Chmod⟩ true, Except.ok ⟨150, 9, 1, 2⟩,
        Except.ok ⟨150, 9, 1, 2⟩⟩,
      ⟨Select.tick, Except.ok ⟨200, 9, 1, 2⟩, Except.ok ⟨200, 9, 1, 2⟩⟩]
    rfl (by decide) 5
  ⟨h.1, h.2.1⟩

theorem runLoop_cons (windows : Bool) (origFi : FileInfo) (st : LoopState)
    (i : Input) (rest : List Input) :
    runLoop windows origFi st (i :: rest)
      = if (iteration windows origFi st i).2 = Status.running then
          runLoop windows origFi (iteration windows origFi st i).1 rest
        else iteration windows origFi st i := by
  rcases h : iteration windows origFi st i with ⟨st1, status⟩
  cases status <;> simp [runLoop, h]

theorem runLoop_append_stopped (windows : Bool) (origFi : FileInfo) :
    ∀ (inputs : List Input) (st : LoopState) (more : List Input),
      (runLoop windows origFi st inputs).2 ≠ Status.running →
      runLoop windows origFi st (inputs ++ more) = runLoop windows origFi st inputs := by
  intro inputs
  induction inputs with
  | nil => intro st more h; exact absurd rfl h
  | cons i rest ih =>
    intro st more h
    rw [List.cons_append, runLoop_cons, runLoop_cons]
    rw [runLoop_cons] at h
    by_cases hr : (iteration windows origFi st i).2 = Status.running
    · rw [if_pos hr] at h ⊢
      rw [if_pos hr]
      exact ih _ more h
    · rw [if_neg hr, if_neg hr]

theorem deletedBranch_status (st : LoopState) :
    (deletedBranch st).2 = Status.returned ∧ (deletedBranch st).1.sys.watched = false ∧
      (deletedBranch st).1.sys.log
        = st.sys.log ++ [Effect.removeWatch, Effect.send Slot.Modified, Effect.sleep 100,
            Effect.send Slot.Deleted] := by
  refine ⟨rfl, rfl, ?_⟩
  simp [deletedBranch, NotifyDeleted_log, RemoveWatch]

theorem pollBranch_deleted (windows : Bool) (origFi : FileInfo) (st : LoopState)
    (pathStat : Except Err FileInfo) :
    DeletedExit st (pollBranch windows origFi st pathStat) ∨
      (Effect.send Slot.Deleted ∈ (pollBranch windows origFi st pathStat).1.sys.log →
        Effect.send Slot.Deleted ∈ st.sys.log) := by
  have hdel : DeletedExit st
      (deletedBranch { st with sys := { st.sys with log := st.sys.log ++ [Effect.statPath] } }) := by
    obtain ⟨h1, h2, h3⟩ := deletedBranch_status
      { st with sys := { st.sys with log := st.sys.log ++ [Effect.statPath] } }
    exact ⟨h1, h2, [Effect.statPath], Or.inr (Or.inl rfl), h3⟩
  cases pathStat with
  | error e =>
    simp only [pollBranch]
    split_ifs
    · exact Or.inl hdel
    · right; simp [Fatal]
  | ok fi =>
    simp only [pollBranch]
    split_ifs
    · exact Or.inl hdel
    · right; simp [NotifyTruncated_log]
    · right; simp [NotifyModified]
    · right; simp [NotifyModified]
    · right; simp

theorem writeBranch_deleted (st : LoopState) (handleStat : Except Err FileInfo) :
    DeletedExit st (writeBranch st handleStat) ∨
      (Effect.send Slot.Deleted ∈ (writeBranch st handleStat).1.sys.log →
        Effect.send Slot.Deleted ∈ st.sys.log) := by
  have hdel : DeletedExit st
      (deletedBranch
        { st with sys := { st.sys with log := st.sys.log ++ [Effect.statHandle] } }) := by
    obtain ⟨h1, h2, h3⟩ := deletedBranch_status
      { st with sys := { st.sys with log := st.sys.log ++ [Effect.statHandle] } }
    exact ⟨h1, h2, [Effect.statHandle], Or.inr (Or.inr rfl), h3⟩
  cases handleStat with
  | error e =>
    simp only [writeBranch]
    split_ifs
    · exact Or.inl hdel
    · right; simp [Fatal]
  | ok fi =>
    simp only [writeBranch]
    split_ifs
    · right; simp [NotifyTruncated_log]
    · right; simp [NotifyModified]

theorem iteration_deleted (windows : Bool) (origFi : FileInfo) (st : LoopState)
    (i : Input) :
    DeletedExit st (iteration windows origFi st i) ∨
      (Effect.send Slot.Deleted ∈ (iteration windows origFi st i).1.sys.log →
        Effect.send Slot.Deleted ∈ st.sys.log) := by
  have hdel : DeletedExit st (deletedBranch st) := by
    obtain ⟨h1, h2, h3⟩ := deletedBranch_status st
    exact ⟨h1, h2, [], Or.inl rfl, by simpa using h3⟩
  obtain ⟨sel, pathStat, handleStat⟩ := i
  cases sel with
  | dying => right; simp [iteration, RemoveWatch]
  | tick =>
    rw [iteration_tick]
    exact pollBranch_deleted windows origFi st pathStat
  | recv evt ok =>
    cases ok with
    | false => right; simp [iteration, RemoveWatch]
    | true =>
      simp only [iteration, switchBody, Bool.not_true, Bool.false_eq_true, if_false]
      split_ifs
      · exact Or.inl hdel
      · exact Or.inl hdel
      · exact writeBranch_deleted st handleStat
      · exact writeBranch_deleted st handleStat
      · right; exact id

theorem runLoop_deleted (windows : Bool) (origFi : FileInfo) :
    ∀ (inputs : List Input) (st : LoopState),
      Effect.send Slot.Deleted ∉ st.sys.log →
      Effect.send Slot.Deleted ∈ (runLoop windows origFi st inputs).1.sys.log →
      (runLoop windows origFi st inputs).2 = Status.returned ∧
      (runLoop windows origFi st inputs).1.sys.watched = false ∧
      ∃ before : List Effect,
        Effect.send Slot.Deleted ∉ before ∧
        (runLoop windows origFi st inputs).1.sys.log
          = before ++ [Effect.removeWatch, Effect.send Slot.Modified, Effect.sleep 100,
              Effect.send Slot.Deleted] := by
  intro inputs
  induction inputs with
  | nil => intro st hfresh hdel; exact absurd hdel hfresh
  | cons i rest ih =>
    intro st hfresh hdel
    rw [runLoop_cons] at hdel ⊢
    rcases iteration_deleted windows origFi st i with ⟨hret, hw, pre, hpre, hlog⟩ | hno
    · have hnr : ¬ (iteration windows origFi st i).2 = Status.running := by
        rw [hret]; decide
      rw [if_neg hnr]
      refine ⟨hret, hw, st.sys.log ++ pre, ?_, hlog⟩
      rcases hpre with rfl | rfl | rfl <;> simpa using hfresh
    · by_cases hr : (iteration windows origFi st i).2 = Status.running
      · rw [if_pos hr] at hdel ⊢
        exact ih _ (fun h => hfresh (hno h)) hdel
      · rw [if_neg hr] at hdel
        exact absurd (hno hdel) hfresh

/-- C7. Deleted is terminal: in a run that starts from a state in which no
Deleted send has happened, once a send on the Deleted slot is in the log the
loop has returned, the watch registration is released, the log ends with
`RemoveWatch`, the Modified send, the grace sleep and the Deleted send in this
order with no Deleted send before them (so nothing at all follows the Deleted
send), and no further input is processed: the run on any longer input sequence
is the same. -/
theorem deleted_is_terminal (windows : Bool) (origFi : FileInfo) (st : LoopState)
    (inputs more : List Input)
    (hfresh : Effect.send Slot.Deleted ∉ st.sys.log)
    (hdel : Effect.send Slot.Deleted ∈ (runLoop windows origFi st inputs).1.sys.log) :
    (runLoop windows origFi st inputs).2 = Status.returned ∧
      (runLoop windows origFi st inputs).1.sys.watched = false ∧
      (∃ before : List Effect,
        Effect.send Slot.Deleted ∉ before ∧
        (runLoop windows origFi st inputs).1.sys.log
          = before ++ [Effect.removeWatch, Effect.send Slot.Modified, Effect.sleep 100,
              Effect.send Slot.Deleted]) ∧
      runLoop windows origFi st (inputs ++ more) = runLoop windows origFi st inputs := by
  obtain ⟨hret, hw, hlog⟩ := runLoop_deleted windows origFi inputs st hfresh hdel
  refine ⟨hret, hw, hlog, ?_⟩
  apply runLoop_append_stopped
  rw [hret]
  decide

/-- Witness of C7: a write event, then a remove event; a later tick changes
nothing. -/
theorem deleted_is_terminal_witness :
    (runLoop false ⟨100, 7, 1, 2⟩ ⟨100, 100, 100, 7, ⟨NewFileChanges, true, []⟩⟩
        [⟨Select.recv ⟨"app.log", Write⟩ true, Except.ok ⟨150, 8, 1, 2⟩,
            Except.ok ⟨150, 8, 1, 2⟩⟩,
          ⟨Select.recv ⟨"app.log", Remove⟩ true, Except.error Err.notExist,
            Except.error Err.notExist⟩]).2 = Status.returned ∧
      runLoop false ⟨100, 7, 1, 2⟩ ⟨100, 100, 100, 7, ⟨NewFileChanges, true, []⟩⟩
          ([⟨Select.recv ⟨"app.log", Write⟩ true, Except.ok ⟨150, 8, 1, 2⟩,
              Except.ok ⟨150, 8, 1, 2⟩⟩,
            ⟨Select.recv ⟨"app.log", Remove⟩ true, Except.error Err.notExist,
              Except.error Err.notExist⟩]
            ++ [⟨Select.tick, Except.ok ⟨10, 9, 1, 2⟩, Except.ok ⟨10, 9, 1, 2⟩⟩])
        = runLoop false ⟨100, 7, 1, 2⟩ ⟨100, 100, 100, 7, ⟨NewFileChanges, true, []⟩⟩
          [⟨Select.recv ⟨"app.log", Write⟩ true, Except.ok ⟨150, 8, 1, 2⟩,
              Except.ok ⟨150, 8, 1, 2⟩⟩,
            ⟨Select.recv ⟨"app.log", Remove⟩ true, Except.error Err.notExist,
              Except.error Err.notExist⟩] :=
  have h := deleted_is_terminal false ⟨100, 7, 1, 2⟩
    ⟨100, 100, 100, 7, ⟨NewFileChanges, true, []⟩⟩
    [⟨Select.recv ⟨"app.log", Write⟩ true, Except.ok ⟨150, 8, 1, 2⟩,
        Except.ok ⟨150, 8, 1, 2⟩⟩,
      ⟨Select.recv ⟨"app.log", Remove⟩ true, Except.error Err.notExist,
        Except.error Err.notExist⟩]
    [⟨Select.tick, Except.ok ⟨10, 9, 1, 2⟩, Except.ok ⟨10, 9, 1, 2⟩⟩]
    (by decide) (by decide)
  ⟨h.1, h.2.2.2⟩

/-- C8. Remove/rename event: for a received event whose op contains `Remove`
or `Rename`, whatever its other bits, the iteration calls `RemoveWatch`, then
`NotifyDeleted` (Modified, then Deleted pending) and returns. No stat call is
logged, the size baselines, `fw.Size`, the stored timestamp and the Truncated
slot are unchanged, and the outcome is the same for every such event and every
answer the stat calls would have given. -/
theorem event_remove_rename (windows : Bool) (origFi : FileInfo) (st : LoopState)
    (evt : Event) (pathStat handleStat : Except Err FileInfo)
    (hv : st.sys.changes.Valid)
    (hop : evt.Op &&& Remove = Remove ∨ evt.Op &&& Rename = Rename) :
    ∃ st1 : LoopState,
      iteration windows origFi st ⟨Select.recv evt true, pathStat, handleStat⟩
        = (st1, Status.returned) ∧
      st1.sys = NotifyDeleted (RemoveWatch st.sys) ∧
      st1.sys.log = st.sys.log ++ [Effect.removeWatch, Effect.send Slot.Modified,
        Effect.sleep 100, Effect.send Slot.Deleted] ∧
      st1.sys.watched = false ∧
      st1.sys.changes.Modified.pending = 1 ∧
      st1.sys.changes.Deleted.pending = 1 ∧
      st1.sys.changes.Truncated = st.sys.changes.Truncated ∧
      st1.prevSize = st.prevSize ∧ st1.pollPrevSize = st.pollPrevSize ∧
      st1.Size = st.Size ∧ st1.prevModTime = st.prevModTime ∧
      (∀ (evt2 : Event) (pathStat2 handleStat2 : Except Err FileInfo),
        evt2.Op &&& Remove = Remove ∨ evt2.Op &&& Rename = Rename →
        iteration windows origFi st ⟨Select.recv evt2 true, pathStat2, handleStat2⟩
          = (st1, Status.returned)) := by
  have key : ∀ (evt2 : Event) (pathStat2 handleStat2 : Except Err FileInfo),
      evt2.Op &&& Remove = Remove ∨ evt2.Op &&& Rename = Rename →
      iteration windows origFi st ⟨Select.recv evt2 true, pathStat2, handleStat2⟩
        = ({ st with sys := NotifyDeleted (RemoveWatch st.sys) }, Status.returned) := by
    intro evt2 pathStat2 handleStat2 h2
    simp only [iteration, switchBody, Bool.not_true, Bool.false_eq_true, if_false]
    rcases h2 with hrm | hrn
    · rw [if_pos hrm]; rfl
    · rw [if_pos hrn]
      split_ifs <;> rfl
  obtain ⟨hm, -, hd⟩ := hv
  refine ⟨_, key evt pathStat handleStat hop, rfl, (deletedBranch_status st).2.2, rfl,
    sendOnlyIfEmpty_pending _ hm.1 hm.2, sendOnlyIfEmpty_pending _ hd.1 hd.2, rfl, rfl, rfl,
    rfl, rfl, key⟩

/-- Witness of C8: an event with `Rename`, `Write` and `Chmod` set. -/
theorem event_remove_rename_witness :
    ∃ st1 : LoopState,
      iteration false ⟨100, 7, 1, 2⟩ ⟨100, 100, 100, 7, ⟨NewFileChanges, true, []⟩⟩
          ⟨Select.recv ⟨"app.log", 26⟩ true, Except.ok ⟨40, 9, 1, 2⟩, Except.ok ⟨40, 9, 1, 2⟩⟩
        = (st1, Status.returned) ∧
      st1.sys.log = [Effect.removeWatch, Effect.send Slot.Modified, Effect.sleep 100,
        Effect.send Slot.Deleted] ∧
      st1.sys.changes.Deleted.pending = 1 :=
  have h := event_remove_rename false ⟨100, 7, 1, 2⟩
    ⟨100, 100, 100, 7, ⟨NewFileChanges, true, []⟩⟩ ⟨"app.log", 26⟩
    (Except.ok ⟨40, 9, 1, 2⟩) (Except.ok ⟨40, 9, 1, 2⟩) (by decide) (by decide)
  h.elim fun st1 h1 => ⟨st1, h1.1, h1.2.2.1, h1.2.2.2.2.2.1⟩

/-- C9. Poll path, deletion and replacement: on a tick whose path stat fails
with not-exist, or on Windows with permission-denied, or succeeds with an
identity other than the recorded one, the iteration stats the path, calls
`RemoveWatch`, then `NotifyDeleted`, and returns. The outcome does not depend
on the size or timestamp of the file found: `fw.Size`, both size baselines and
the stored timestamp are unchanged and the Truncated slot is untouched. -/
theorem poll_deleted (windows : Bool) (origFi : FileInfo) (st : LoopState)
    (pathStat handleStat : Except Err FileInfo)
    (hv : st.sys.changes.Valid)
    (hgone : pathStat = Except.error Err.notExist ∨
      (windows = true ∧ pathStat = Except.error Err.permission) ∨
      (∃ fi : FileInfo, pathStat = Except.ok fi ∧ SameFile origFi fi = false)) :
    iteration windows origFi st ⟨Select.tick, pathStat, handleStat⟩
        = ({ st with
              sys := NotifyDeleted
                (RemoveWatch { st.sys with log := st.sys.log ++ [Effect.statPath] }) },
            Status.returned) ∧
      (iteration windows origFi st ⟨Select.tick, pathStat, handleStat⟩).1.sys.log
        = st.sys.log ++ [Effect.statPath, Effect.removeWatch, Effect.send Slot.Modified,
            Effect.sleep 100, Effect.send Slot.Deleted] ∧
      (iteration windows origFi st ⟨Select.tick, pathStat, handleStat⟩).1.sys.watched
        = false ∧
      (iteration windows origFi st
        ⟨Select.tick, pathStat, handleStat⟩).1.sys.changes.Modified.pending = 1 ∧
      (iteration windows origFi st
        ⟨Select.tick, pathStat, handleStat⟩).1.sys.changes.Deleted.pending = 1 ∧
      (iteration windows origFi st ⟨Select.tick, pathStat, handleStat⟩).1.sys.changes.Truncated
        = st.sys.changes.Truncated := by
  have key : iteration windows origFi st ⟨Select.tick, pathStat, handleStat⟩
      = ({ st with
            sys := NotifyDeleted
              (RemoveWatch { st.sys with log := st.sys.log ++ [Effect.statPath] }) },
          Status.returned) := by
    rw [iteration_tick]
    rcases hgone with rfl | ⟨rfl, rfl⟩ | ⟨fi, rfl, hid⟩
    · simp [pollBranch, IsNotExist, deletedBranch]
    · simp [pollBranch, IsNotExist, IsPermission, deletedBranch]
    · simp [pollBranch, hid, deletedBranch]
  obtain ⟨hm, -, hd⟩ := hv
  refine ⟨key, ?_, ?_, ?_, ?_, ?_⟩
  · rw [key]
    simp [NotifyDeleted_log, RemoveWatch]
  · rw [key]; rfl
  · rw [key]
    exact sendOnlyIfEmpty_pending _ hm.1 hm.2
  · rw [key]
    exact sendOnlyIfEmpty_pending _ hd.1 hd.2
  · rw [key]; rfl

/-- Witness of C9: the path now holds another file (other inode), smaller and
newer than the recorded one. -/
theorem poll_deleted_witness :
    (iteration false ⟨100, 7, 1, 2⟩ ⟨100, 100, 100, 7, ⟨NewFileChanges, true, []⟩⟩
        ⟨Select.tick, Except.ok ⟨40, 9, 1, 3⟩, Except.ok ⟨100, 7, 1, 2⟩⟩).2
        = Status.returned ∧
      (iteration false ⟨100, 7, 1, 2⟩ ⟨100, 100, 100, 7, ⟨NewFileChanges, true, []⟩⟩
        ⟨Select.tick, Except.ok ⟨40, 9, 1, 3⟩, Except.ok ⟨100, 7, 1, 2⟩⟩).1.sys.changes.Truncated
        = Chan.make 1 :=
  have h := poll_deleted false ⟨100, 7, 1, 2⟩
    ⟨100, 100, 100, 7, ⟨NewFileChanges, true, []⟩⟩
    (Except.ok ⟨40, 9, 1, 3⟩) (Except.ok ⟨100, 7, 1, 2⟩) (by decide)
    (Or.inr (Or.inr ⟨⟨40, 9, 1, 3⟩, rfl, by decide⟩))
  ⟨congrArg Prod.snd h.1, h.2.2.2.2.2⟩

/-! ## Properties of `BlockUntilExists` -/

/-- C10. `BlockUntilExists` on an existing path: when `WatchCreate` succeeds
and the stat of the path succeeds, the call returns `nil` for every sequence of
`select` outcomes (pending events, a closed feed or a dying tomb make no
difference), after exactly `WatchCreate`, the stat and the deferred
`RemoveWatchCreate`: no event is received. -/
theorem BlockUntilExists_existing (abs : String → Except Err String) (Filename : String)
    (fi : FileInfo) (sels : List WaitSelect) :
    BlockUntilExists abs Filename none (Except.ok fi) sels
        = (Outcome.returned none,
            [Effect.watchCreate, Effect.statPath, Effect.removeWatchCreate]) ∧
      Effect.recvEvent ∉ (BlockUntilExists abs Filename none (Except.ok fi) sels).2 := by
  have key : BlockUntilExists abs Filename none (Except.ok fi) sels
      = (Outcome.returned none,
          [Effect.watchCreate, Effect.statPath, Effect.removeWatchCreate]) := by
    simp [BlockUntilExists, IsNotExist, deferRemoveWatchCreate]
  refine ⟨key, ?_⟩
  rw [key]
  decide

theorem waitLoop_dying (abs : String → Except Err String) (Filename : String)
    (rest : List WaitSelect) (log : List Effect) :
    waitLoop abs Filename (WaitSelect.dying :: rest) log
      = (Outcome.returned (some Err.dying), log) := by
  simp [waitLoop]

theorem waitLoop_closed (abs : String → Except Err String) (Filename : String)
    (evt : Event) (rest : List WaitSelect) (log : List Effect) :
    waitLoop abs Filename (WaitSelect.recv evt false :: rest) log
      = (Outcome.returned (some Err.watcherClosed), log ++ [Effect.recvEvent]) := by
  simp [waitLoop]

theorem waitLoop_event (abs : String → Except Err String) (Filename : String)
    (evt : Event) (rest : List WaitSelect) (log : List Effect) (evtName fwFilename : String)
    (he : abs evt.Name = Except.ok evtName) (hf : abs Filename = Except.ok fwFilename) :
    waitLoop abs Filename (WaitSelect.recv evt true :: rest) log
      = if evtName = fwFilename then (Outcome.returned none, log ++ [Effect.recvEvent])
        else waitLoop abs Filename rest (log ++ [Effect.recvEvent]) := by
  simp [waitLoop, he, hf]

theorem waitLoop_skip (abs : String → Except Err String) (Filename fwAbs : String)
    (habs : abs Filename = Except.ok fwAbs) :
    ∀ (pre rest : List WaitSelect) (log : List Effect),
      (∀ s ∈ pre, ∃ (evt : Event) (n : String),
        s = WaitSelect.recv evt true ∧ abs evt.Name = Except.ok n ∧ n ≠ fwAbs) →
      waitLoop abs Filename (pre ++ rest) log
        = waitLoop abs Filename rest (log ++ List.replicate pre.length Effect.recvEvent) := by
  intro pre
  induction pre with
  | nil => intro rest log _; simp
  | cons s pre ih =>
    intro rest log hpre
    obtain ⟨evt, n, rfl, hn, hne⟩ := hpre s (List.mem_cons_self _ _)
    rw [List.cons_append, waitLoop_event abs Filename evt _ log n fwAbs hn habs, if_neg hne,
      ih rest _ (fun t ht => hpre t (List.mem_cons_of_mem _ ht))]
    simp [List.replicate_succ]

theorem waitLoop_log (abs : String → Except Err String) (Filename : String) :
    ∀ (sels : List WaitSelect) (log : List Effect),
      ∃ k : Nat, (waitLoop abs Filename sels log).2 = log ++ List.replicate k Effect.recvEvent := by
  intro sels
  induction sels with
  | nil => intro log; exact ⟨0, by simp [waitLoop]⟩
  | cons s rest ih =>
    intro log
    cases s with
    | dying => exact ⟨0, by simp [waitLoop]⟩
    | recv evt ok =>
      cases ok with
      | false => exact ⟨1, by simp [waitLoop]⟩
      | true =>
        simp only [waitLoop, Bool.not_true, Bool.false_eq_true, if_false]
        cases abs evt.Name with
        | error e => exact ⟨1, by simp⟩
        | ok evtName =>
          cases abs Filename with
          | error e => exact ⟨1, by simp⟩
          | ok fwFilename =>
            by_cases heq : evtName = fwFilename
            · exact ⟨1, by simp [heq]⟩
            · obtain ⟨k, hk⟩ := ih (log ++ [Effect.recvEvent])
              refine ⟨k + 1, ?_⟩
              simp only [heq, if_false, hk, List.append_assoc, List.singleton_append,
                List.replicate_succ]

/-- C11. `BlockUntilExists` while waiting: the stat reports not-exist, and the
first events received carry other absolute names (`pre`). Then the call
returns `nil` at the first event whose absolute name is the absolute watched
path, `tomb.ErrDying` when the dying case fires, the "watcher has been closed"
error when the feed is closed, and is still blocked when the inputs end; the
events of `pre` are received and ignored. On every return of a call whose
`WatchCreate` succeeded, whatever the stat answer and the inputs, the log is
`WatchCreate`, then actions that are neither, then one `RemoveWatchCreate`. -/
theorem BlockUntilExists_waiting (abs : String → Except Err String)
    (Filename fwAbs : String) (pre rest : List WaitSelect)
    (habs : abs Filename = Except.ok fwAbs)
    (hpre : ∀ s ∈ pre, ∃ (evt : Event) (n : String),
      s = WaitSelect.recv evt true ∧ abs evt.Name = Except.ok n ∧ n ≠ fwAbs) :
    (∀ evt : Event, abs evt.Name = Except.ok fwAbs →
      BlockUntilExists abs Filename none (Except.error Err.notExist)
          (pre ++ WaitSelect.recv evt true :: rest)
        = (Outcome.returned none,
            [Effect.watchCreate, Effect.statPath]
              ++ List.replicate (pre.length + 1) Effect.recvEvent
              ++ [Effect.removeWatchCreate])) ∧
    BlockUntilExists abs Filename none (Except.error Err.notExist)
        (pre ++ WaitSelect.dying :: rest)
      = (Outcome.returned (some Err.dying),
          [Effect.watchCreate, Effect.statPath]
            ++ List.replicate pre.length Effect.recvEvent
            ++ [Effect.removeWatchCreate]) ∧
    (∀ evt : Event,
      BlockUntilExists abs Filename none (Except.error Err.notExist)
          (pre ++ WaitSelect.recv evt false :: rest)
        = (Outcome.returned (some Err.watcherClosed),
            [Effect.watchCreate, Effect.statPath]
              ++ List.replicate (pre.length + 1) Effect.recvEvent
              ++ [Effect.removeWatchCreate])) ∧
    BlockUntilExists abs Filename none (Except.error Err.notExist) pre
      = (Outcome.blocked,
          [Effect.watchCreate, Effect.statPath]
            ++ List.replicate pre.length Effect.recvEvent) ∧
    (∀ (abs2 : String → Except Err String) (stat : Except Err FileInfo)
        (sels : List WaitSelect) (err : Option Err) (log : List Effect),
      BlockUntilExists abs2 Filename none stat sels = (Outcome.returned err, log) →
      ∃ body : List Effect,
        log = Effect.watchCreate :: body ++ [Effect.removeWatchCreate] ∧
        Effect.removeWatchCreate ∉ body ∧ Effect.watchCreate ∉ body) := by
  have hstart : ∀ sels : List WaitSelect,
      BlockUntilExists abs Filename none (Except.error Err.notExist) sels
        = deferRemoveWatchCreate
            (waitLoop abs Filename sels [Effect.watchCreate, Effect.statPath]) := by
    intro sels
    simp [BlockUntilExists, IsNotExist]
  refine ⟨?_, ?_, ?_, ?_, ?_⟩
  · intro evt hevt
    rw [hstart, waitLoop_skip abs Filename fwAbs habs pre _ _ hpre,
      waitLoop_event abs Filename evt rest _ fwAbs fwAbs hevt habs, if_pos rfl]
    simp [deferRemoveWatchCreate, List.replicate_succ']
  · rw [hstart, waitLoop_skip abs Filename fwAbs habs pre _ _ hpre, waitLoop_dying]
    simp [deferRemoveWatchCreate]
  · intro evt
    rw [hstart, waitLoop_skip abs Filename fwAbs habs pre _ _ hpre, waitLoop_closed]
    simp [deferRemoveWatchCreate, List.replicate_succ']
  · have h := waitLoop_skip abs Filename fwAbs habs pre [] [Effect.watchCreate, Effect.statPath]
      hpre
    rw [List.append_nil] at h
    rw [hstart, h]
    simp [waitLoop, deferRemoveWatchCreate]
  · intro abs2 stat sels err log hret
    simp only [BlockUntilExists] at hret
    split_ifs at hret with hne
    · simp only [deferRemoveWatchCreate, Prod.mk.injEq, Outcome.returned.injEq] at hret
      refine ⟨[Effect.statPath], ?_, by decide, by decide⟩
      rw [← hret.2]
      rfl
    · obtain ⟨k, hk⟩ := waitLoop_log abs2 Filename sels [Effect.watchCreate, Effect.statPath]
      simp only [List.singleton_append] at hret
      rcases hw : waitLoop abs2 Filename sels [Effect.watchCreate, Effect.statPath]
        with ⟨out, wlog⟩
      rw [hw] at hret hk
      simp only at hk
      cases out with
      | blocked => simp [deferRemoveWatchCreate] at hret
      | returned e =>
        simp only [deferRemoveWatchCreate, Prod.mk.injEq, Outcome.returned.injEq] at hret
        refine ⟨Effect.statPath :: List.replicate k Effect.recvEvent, ?_, ?_, ?_⟩
        · rw [← hret.2, hk]
          rfl
        · simp [List.mem_replicate]
        · simp [List.mem_replicate]

/-- Witness of C11: the watched path is `/var/log/app.log`; an event for
another file is ignored, then either the creation event of the watched path
arrives or the tomb is dying. -/
theorem BlockUntilExists_waiting_witness :
    BlockUntilExists (fun s => Except.ok s) "/var/log/app.log" none
        (Except.error Err.notExist)
        ([WaitSelect.recv ⟨"/var/log/other.log", Create⟩ true]
          ++ WaitSelect.recv ⟨"/var/log/app.log", Create⟩ true :: [])
      = (Outcome.returned none,
          [Effect.watchCreate, Effect.statPath]
            ++ List.replicate (1 + 1) Effect.recvEvent ++ [Effect.removeWatchCreate]) ∧
    BlockUntilExists (fun s => Except.ok s) "/var/log/app.log" none
        (Except.error Err.notExist)
        ([WaitSelect.recv ⟨"/var/log/other.log", Create⟩ true] ++ WaitSelect.dying :: [])
      = (Outcome.returned (some Err.dying),
          [Effect.watchCreate, Effect.statPath]
            ++ List.replicate 1 Effect.recvEvent ++ [Effect.removeWatchCreate]) :=
  have h := BlockUntilExists_waiting (fun s => Except.ok s) "/var/log/app.log"
    "/var/log/app.log" [WaitSelect.recv ⟨"/var/log/other.log", Create⟩ true] [] rfl
    (by
      intro s hs
      rw [List.mem_singleton] at hs
      exact ⟨⟨"/var/log/other.log", Create⟩, "/var/log/other.log", hs, rfl, by decide⟩)
  ⟨h.1 ⟨"/var/log/app.log", Create⟩ rfl, h.2.1⟩

/-! ## Properties of the start of a session and of further single iterations -/

/-- Counterexample to C12 as stated: the opened file has size 500 in the
initial stat snapshot and the session starts at offset 0. Both size baselines
of the loop start at 0, not at 500. -/
theorem ChangeEvents_seed_counterexample :
    ChangeEvents none (Except.ok ⟨500, 7, 1, 2⟩) none 0
        = Except.ok (⟨500, 7, 1, 2⟩, ⟨0, 0, 0, 7, ⟨NewFileChanges, true, []⟩⟩) ∧
      (⟨0, 0, 0, 7, ⟨NewFileChanges, true, []⟩⟩ : LoopState).prevSize
        ≠ (⟨500, 7, 1, 2⟩ : FileInfo).size ∧
      (⟨0, 0, 0, 7, ⟨NewFileChanges, true, []⟩⟩ : LoopState).pollPrevSize
        ≠ (⟨500, 7, 1, 2⟩ : FileInfo).size :=
  ⟨rfl, by decide, by decide⟩

/-- C12, amended. Initial state: when `os.Open`, the stat of the handle and
`Watch` succeed, `ChangeEvents` starts the loop with `prevSize` and
`pollPrevSize` both equal to the start offset `pos` (as is `fw.Size`), whatever
size the snapshot holds, with `prevModTime` the modification time of the
snapshot, with the snapshot itself as the recorded identity, the watch
registered and three empty slots of capacity one. -/
theorem ChangeEvents_seed (origFi : FileInfo) (pos : Int) :
    ∃ st0 : LoopState,
      ChangeEvents none (Except.ok origFi) none pos = Except.ok (origFi, st0) ∧
      st0.prevSize = pos ∧ st0.pollPrevSize = pos ∧ st0.Size = pos ∧
      st0.prevModTime = origFi.modTime ∧
      st0.sys = ⟨NewFileChanges, true, []⟩ :=
  ⟨_, rfl, rfl, rfl, rfl, rfl, rfl⟩

/-- C13. Poll path, timestamp comparison: on a tick whose stat succeeds with
the recorded identity and a size equal to `pollPrevSize`, a modification time
later than the stored one makes the iteration call `NotifyModified` (Modified
pending) and store the new time; an equal modification time sets no token and
leaves `prevSize`, `pollPrevSize` and `prevModTime` as they were. The Truncated
and Deleted slots are untouched in both cases and the loop goes on. -/
theorem poll_same_size (windows : Bool) (origFi fi : FileInfo) (st : LoopState)
    (handleStat : Except Err FileInfo)
    (hv : st.sys.changes.Valid) (hid : SameFile origFi fi = true)
    (hsz : fi.size = st.pollPrevSize) :
    (st.prevModTime < fi.modTime →
      ∃ st1 : LoopState,
        iteration windows origFi st ⟨Select.tick, Except.ok fi, handleStat⟩
          = (st1, Status.running) ∧
        st1.sys = NotifyModified { st.sys with log := st.sys.log ++ [Effect.statPath] } ∧
        st1.sys.log = st.sys.log ++ [Effect.statPath, Effect.send Slot.Modified] ∧
        st1.sys.changes.Modified.pending = 1 ∧
        st1.prevModTime = fi.modTime ∧
        st1.prevSize = st.prevSize ∧ st1.pollPrevSize = st.pollPrevSize ∧
        st1.sys.changes.Truncated = st.sys.changes.Truncated ∧
        st1.sys.changes.Deleted = st.sys.changes.Deleted) ∧
    (fi.modTime = st.prevModTime →
      ∃ st1 : LoopState,
        iteration windows origFi st ⟨Select.tick, Except.ok fi, handleStat⟩
          = (st1, Status.running) ∧
        st1.sys.changes = st.sys.changes ∧
        st1.sys.log = st.sys.log ++ [Effect.statPath] ∧
        st1.prevModTime = st.prevModTime ∧
        st1.prevSize = st.prevSize ∧ st1.pollPrevSize = st.pollPrevSize) := by
  obtain ⟨hm, -, -⟩ := hv
  have hn1 : ¬ (st.pollPrevSize > 0 ∧ st.pollPrevSize > fi.size) := by
    intro h; omega
  have hn2 : ¬ (st.pollPrevSize > 0 ∧ st.pollPrevSize < fi.size) := by
    intro h; omega
  constructor
  · intro hlater
    have hne : fi.modTime ≠ st.prevModTime := by omega
    refine ⟨{ st with
                Size := fi.size
                pollPrevSize := fi.size
                prevModTime := fi.modTime
                sys := NotifyModified { st.sys with log := st.sys.log ++ [Effect.statPath] } },
      ?_, rfl, ?_, sendOnlyIfEmpty_pending _ hm.1 hm.2, rfl, rfl, hsz, rfl, rfl⟩
    · rw [iteration_tick]
      simp only [pollBranch, hid, Bool.not_true, Bool.false_eq_true, if_false, hn1, hn2]
      simp [hne]
    · simp [NotifyModified]
  · intro heq
    refine ⟨{ st with
                Size := fi.size
                pollPrevSize := fi.size
                sys := { st.sys with log := st.sys.log ++ [Effect.statPath] } },
      ?_, rfl, rfl, rfl, rfl, hsz⟩
    rw [iteration_tick]
    simp only [pollBranch, hid, Bool.not_true, Bool.false_eq_true, if_false, hn1, hn2]
    simp [heq]

/-- Witness of C13: `pollPrevSize` 100, the tick observes size 100 with a later
modification time. -/
theorem poll_same_size_witness :
    ∃ st1 : LoopState,
      iteration false ⟨100, 7, 1, 2⟩ ⟨100, 100, 100, 7, ⟨NewFileChanges, true, []⟩⟩
          ⟨Select.tick, Except.ok ⟨100, 9, 1, 2⟩, Except.error Err.notExist⟩
        = (st1, Status.running) ∧
      st1.sys.changes.Modified.pending = 1 ∧ st1.prevModTime = 9 :=
  have h := poll_same_size false ⟨100, 7, 1, 2⟩ ⟨100, 9, 1, 2⟩
    ⟨100, 100, 100, 7, ⟨NewFileChanges, true, []⟩⟩ (Except.error Err.notExist)
    (by decide) (by decide) (by decide)
  (h.1 (by decide)).elim fun st1 h1 => ⟨st1, h1.1, h1.2.2.2.1, h1.2.2.2.2.1⟩

/-- C14. Metadata-change equals write: for every loop state and handle-stat
answer, an event whose op contains `Chmod` and neither `Remove` nor `Rename`
gives the same resulting state and status as an event whose op is `Write`: the
shared body that stats the handle. In particular an unchanged size still
calls `NotifyModified`. -/
theorem chmod_equals_write (windows : Bool) (origFi : FileInfo) (st : LoopState)
    (evt : Event) (name : String) (pathStat pathStat2 handleStat : Except Err FileInfo)
    (hch : evt.Op &&& Chmod = Chmod) (hrm : evt.Op &&& Remove ≠ Remove)
    (hrn : evt.Op &&& Rename ≠ Rename) :
    iteration windows origFi st ⟨Select.recv evt true, pathStat, handleStat⟩
        = iteration windows origFi st ⟨Select.recv ⟨name, Write⟩ true, pathStat2, handleStat⟩ ∧
      iteration windows origFi st ⟨Select.recv evt true, pathStat, handleStat⟩
        = writeBranch st handleStat ∧
      (∀ fi : FileInfo, handleStat = Except.ok fi → fi.size = st.prevSize →
        (iteration windows origFi st ⟨Select.recv evt true, pathStat, handleStat⟩).2
          = Status.running ∧
        (iteration windows origFi st ⟨Select.recv evt true, pathStat, handleStat⟩).1.sys
          = NotifyModified { st.sys with log := st.sys.log ++ [Effect.statHandle] }) := by
  have h1 : iteration windows origFi st ⟨Select.recv evt true, pathStat, handleStat⟩
      = writeBranch st handleStat := by
    simp [iteration, switchBody, hch, hrm, hrn]
  have hw1 : ¬ (Write &&& Remove = Remove) := by decide
  have hw2 : ¬ (Write &&& Rename = Rename) := by decide
  have hw3 : Write &&& Write = Write := by decide
  have h2 : iteration windows origFi st ⟨Select.recv ⟨name, Write⟩ true, pathStat2, handleStat⟩
      = writeBranch st handleStat := by
    simp [iteration, switchBody, hw1, hw2, hw3]
  refine ⟨h1.trans h2.symm, h1, ?_⟩
  intro fi hfi hsz
  subst hfi
  have hn : ¬ (st.prevSize > 0 ∧ st.prevSize > fi.size) := by
    intro h; omega
  rw [h1]
  simp [writeBranch, hn]

/-- Witness of C14: an event with `Chmod` only, the handle reports the size
already recorded. -/
theorem chmod_equals_write_witness :
    iteration false ⟨100, 7, 1, 2⟩ ⟨100, 100, 100, 7, ⟨NewFileChanges, true, []⟩⟩
        ⟨Select.recv ⟨"app.log", Chmod⟩ true, Except.error Err.notExist,
          Except.ok ⟨100, 9, 1, 2⟩⟩
      = iteration false ⟨100, 7, 1, 2⟩ ⟨100, 100, 100, 7, ⟨NewFileChanges, true, []⟩⟩
        ⟨Select.recv ⟨"app.log", Write⟩ true, Except.error Err.notExist,
          Except.ok ⟨100, 9, 1, 2⟩⟩ :=
  (chmod_equals_write false ⟨100, 7, 1, 2⟩ ⟨100, 100, 100, 7, ⟨NewFileChanges, true, []⟩⟩
    ⟨"app.log", Chmod⟩ "app.log" (Except.error Err.notExist) (Except.error Err.notExist)
    (Except.ok ⟨100, 9, 1, 2⟩) (by decide) (by decide) (by decide)).1

/-- C15. Stat-failure policy. On a tick, a failed path stat classifies the file
as deleted exactly when the error is not-exist, or permission-denied on
Windows; on a write or metadata-change event, a failed handle stat does so
exactly when the error is not-exist. Every other failure calls `util.Fatal`:
no send is attempted, the channels, `fw.Size` and both size baselines are
unchanged, `RemoveWatch` is not called, and the run stops there whatever inputs
follow. -/
theorem stat_failure_policy (windows : Bool) (origFi : FileInfo) (st : LoopState)
    (e : Err) (evt : Event) (pathStat handleStat : Except Err FileInfo)
    (rest : List Input)
    (hcw : evt.Op &&& Chmod = Chmod ∨ evt.Op &&& Write = Write)
    (hrm : evt.Op &&& Remove ≠ Remove) (hrn : evt.Op &&& Rename ≠ Rename) :
    ((e = Err.notExist ∨ (windows = true ∧ e = Err.permission)) →
      iteration windows origFi st ⟨Select.tick, Except.error e, handleStat⟩
        = ({ st with
              sys := NotifyDeleted
                (RemoveWatch { st.sys with log := st.sys.log ++ [Effect.statPath] }) },
            Status.returned)) ∧
    (¬ (e = Err.notExist ∨ (windows = true ∧ e = Err.permission)) →
      ∃ st1 : LoopState,
        iteration windows origFi st ⟨Select.tick, Except.error e, handleStat⟩
          = (st1, Status.fatal) ∧
        st1.sys.log = st.sys.log ++ [Effect.statPath, Effect.fatal] ∧
        st1.sys.changes = st.sys.changes ∧ st1.sys.watched = st.sys.watched ∧
        st1.Size = st.Size ∧ st1.prevSize = st.prevSize ∧
        st1.pollPrevSize = st.pollPrevSize ∧ st1.prevModTime = st.prevModTime ∧
        runLoop windows origFi st (⟨Select.tick, Except.error e, handleStat⟩ :: rest)
          = (st1, Status.fatal)) ∧
    (e = Err.notExist →
      iteration windows origFi st ⟨Select.recv evt true, pathStat, Except.error e⟩
        = ({ st with
              sys := NotifyDeleted
                (RemoveWatch { st.sys with log := st.sys.log ++ [Effect.statHandle] }) },
            Status.returned)) ∧
    (e ≠ Err.notExist →
      ∃ st1 : LoopState,
        iteration windows origFi st ⟨Select.recv evt true, pathStat, Except.error e⟩
          = (st1, Status.fatal) ∧
        st1.sys.log = st.sys.log ++ [Effect.statHandle, Effect.fatal] ∧
        st1.sys.changes = st.sys.changes ∧ st1.sys.watched = st.sys.watched ∧
        st1.Size = st.Size ∧ st1.prevSize = st.prevSize ∧
        st1.pollPrevSize = st.pollPrevSize ∧ st1.prevModTime = st.prevModTime ∧
        runLoop windows origFi st
            (⟨Select.recv evt true, pathStat, Except.error e⟩ :: rest)
          = (st1, Status.fatal)) := by
  have hbr : iteration windows origFi st ⟨Select.recv evt true, pathStat, Except.error e⟩
      = writeBranch st (Except.error e) := by
    rcases hcw with hch | hwr
    · simp [iteration, switchBody, hrm, hrn, hch]
    · simp [iteration, switchBody, hrm, hrn, hwr]
  refine ⟨?_, ?_, ?_, ?_⟩
  · intro hc
    rw [iteration_tick]
    rcases hc with rfl | ⟨rfl, rfl⟩
    · simp [pollBranch, IsNotExist, deletedBranch]
    · simp [pollBranch, IsNotExist, IsPermission, deletedBranch]
  · intro hc
    have hcond : (IsNotExist (some e) || (windows && IsPermission (some e))) = false := by
      cases e <;> cases windows <;> simp_all [IsNotExist, IsPermission]
    have hit : iteration windows origFi st ⟨Select.tick, Except.error e, handleStat⟩
        = ({ st with sys := Fatal { st.sys with log := st.sys.log ++ [Effect.statPath] } },
            Status.fatal) := by
      rw [iteration_tick]
      simp [pollBranch, hcond]
    refine ⟨_, hit, ?_, rfl, rfl, rfl, rfl, rfl, rfl, ?_⟩
    · simp [Fatal]
    · rw [runLoop_cons, hit]
      simp
  · intro hc
    subst hc
    rw [hbr]
    simp [writeBranch, IsNotExist, deletedBranch]
  · intro hc
    have hcond : IsNotExist (some e) = false := by
      cases e <;> simp_all [IsNotExist]
    have hit : iteration windows origFi st ⟨Select.recv evt true, pathStat, Except.error e⟩
        = ({ st with sys := Fatal { st.sys with log := st.sys.log ++ [Effect.statHandle] } },
            Status.fatal) := by
      rw [hbr]
      simp [writeBranch, hcond]
    refine ⟨_, hit, ?_, rfl, rfl, rfl, rfl, rfl, rfl, ?_⟩
    · simp [Fatal]
    · rw [runLoop_cons, hit]
      simp

/-- Witness of C15: permission-denied on a platform other than Windows, on a
tick, takes the fatal path. -/
theorem stat_failure_policy_witness :
    ∃ st1 : LoopState,
      iteration false ⟨100, 7, 1, 2⟩ ⟨100, 100, 100, 7, ⟨NewFileChanges, true, []⟩⟩
          ⟨Select.tick, Except.error Err.permission, Except.error Err.permission⟩
        = (st1, Status.fatal) ∧
      st1.sys.log = [Effect.statPath, Effect.fatal] ∧
      st1.sys.changes = NewFileChanges :=
  have h := stat_failure_policy false ⟨100, 7, 1, 2⟩
    ⟨100, 100, 100, 7, ⟨NewFileChanges, true, []⟩⟩ Err.permission ⟨"app.log", Write⟩
    (Except.error Err.permission) (Except.error Err.permission) []
    (by decide) (by decide) (by decide)
  (h.2.1 (by decide)).elim fun st1 h1 => ⟨st1, h1.1, h1.2.1, h1.2.2.1⟩

/-! ## Watch release and independence of the two paths -/

theorem deletedBranch_watch (st st0 : LoopState) (ext : List Effect)
    (hlog : st.sys.log = st0.sys.log ++ ext) (hext : ext.count Effect.removeWatch = 0) :
    WatchEffect st0 (deletedBranch st) := by
  refine ⟨?_, fun _ => rfl, fun h => absurd rfl h⟩
  rw [(deletedBranch_status st).2.2, hlog, if_pos (deletedBranch_status st).1]
  simp [List.count_append, hext, List.count_cons]

theorem pollBranch_watch (windows : Bool) (origFi : FileInfo) (st : LoopState)
    (pathStat : Except Err FileInfo) :
    WatchEffect st (pollBranch windows origFi st pathStat) := by
  have hdel : WatchEffect st
      (deletedBranch { st with sys := { st.sys with log := st.sys.log ++ [Effect.statPath] } }) :=
    deletedBranch_watch _ st [Effect.statPath] rfl (by decide)
  cases pathStat with
  | error e =>
    simp only [pollBranch]
    split_ifs
    · exact hdel
    · refine ⟨?_, fun h => by simp at h, fun _ => rfl⟩
      simp [Fatal, List.count_append, List.count_cons]
  | ok fi =>
    simp only [pollBranch]
    split_ifs
    · exact hdel
    · refine ⟨?_, fun h => by simp at h, fun _ => rfl⟩
      simp [NotifyTruncated_log, List.count_append, List.count_cons]
    · refine ⟨?_, fun h => by simp at h, fun _ => rfl⟩
      simp [NotifyModified, List.count_append, List.count_cons]
    · refine ⟨?_, fun h => by simp at h, fun _ => rfl⟩
      simp [NotifyModified, List.count_append, List.count_cons]
    · refine ⟨?_, fun h => by simp at h, fun _ => rfl⟩
      simp [List.count_append, List.count_cons]

theorem writeBranch_watch (st : LoopState) (handleStat : Except Err FileInfo) :
    WatchEffect st (writeBranch st handleStat) := by
  have hdel : WatchEffect st
      (deletedBranch
        { st with sys := { st.sys with log := st.sys.log ++ [Effect.statHandle] } }) :=
    deletedBranch_watch _ st [Effect.statHandle] rfl (by decide)
  cases handleStat with
  | error e =>
    simp only [writeBranch]
    split_ifs
    · exact hdel
    · refine ⟨?_, fun h => by simp at h, fun _ => rfl⟩
      simp [Fatal, List.count_append, List.count_cons]
  | ok fi =>
    simp only [writeBranch]
    split_ifs
    · refine ⟨?_, fun h => by simp at h, fun _ => rfl⟩
      simp [NotifyTruncated_log, List.count_append, List.count_cons]
    · refine ⟨?_, fun h => by simp at h, fun _ => rfl⟩
      simp [NotifyModified, List.count_append, List.count_cons]

theorem iteration_watch (windows : Bool) (origFi : FileInfo) (st : LoopState) (i : Input) :
    WatchEffect st (iteration windows origFi st i) := by
  have hrem : WatchEffect st ({ st with sys := RemoveWatch st.sys }, Status.returned) := by
    refine ⟨?_, fun _ => rfl, fun h => absurd rfl h⟩
    simp [RemoveWatch, List.count_append, List.count_cons]
  obtain ⟨sel, pathStat, handleStat⟩ := i
  cases sel with
  | dying => exact hrem
  | tick =>
    rw [iteration_tick]
    exact pollBranch_watch windows origFi st pathStat
  | recv evt ok =>
    cases ok with
    | false => exact hrem
    | true =>
      simp only [iteration, switchBody, Bool.not_true, Bool.false_eq_true, if_false]
      split_ifs
      · exact deletedBranch_watch st st [] (by simp) rfl
      · exact deletedBranch_watch st st [] (by simp) rfl
      · exact writeBranch_watch st handleStat
      · exact writeBranch_watch st handleStat
      · exact ⟨by simp, fun h => by simp at h, fun _ => rfl⟩

theorem runLoop_watch (windows : Bool) (origFi : FileInfo) :
    ∀ (inputs : List Input) (st : LoopState),
      WatchEffect st (runLoop windows origFi st inputs) := by
  intro inputs
  induction inputs with
  | nil =>
    intro st
    exact ⟨by simp [runLoop], fun h => by simp [runLoop] at h, fun _ => rfl⟩
  | cons i rest ih =>
    intro st
    rw [runLoop_cons]
    have hit := iteration_watch windows origFi st i
    by_cases hr : (iteration windows origFi st i).2 = Status.running
    · rw [if_pos hr]
      obtain ⟨hc, hw1, hw2⟩ := ih (iteration windows origFi st i).1
      obtain ⟨hc0, -, hw0⟩ := hit
      have hnr : (iteration windows origFi st i).2 ≠ Status.returned := by
        rw [hr]; decide
      rw [if_neg hnr, Nat.add_zero] at hc0
      refine ⟨by rw [hc, hc0], hw1, fun h => ?_⟩
      rw [hw2 h, hw0 hnr]
    · rw [if_neg hr]
      exact hit

/-- C16. Watch release: in every run the number of `RemoveWatch` calls grows
by one if the loop has returned and by none otherwise, and the watch is
released once the loop has returned; an iteration that lets the loop go on
makes no such call and keeps the registration. On the dying case and on a
closed event feed the iteration calls `RemoveWatch` and returns, whatever the
stat calls would have answered: no stat and no send is logged and the channels
are as before. -/
theorem watch_released_once (windows : Bool) (origFi : FileInfo) (st : LoopState)
    (inputs : List Input) :
    (runLoop windows origFi st inputs).1.sys.log.count Effect.removeWatch
        = st.sys.log.count Effect.removeWatch
          + (if (runLoop windows origFi st inputs).2 = Status.returned then 1 else 0) ∧
      ((runLoop windows origFi st inputs).2 = Status.returned →
        (runLoop windows origFi st inputs).1.sys.watched = false) ∧
      (∀ i : Input, (iteration windows origFi st i).2 = Status.running →
        (iteration windows origFi st i).1.sys.log.count Effect.removeWatch
          = st.sys.log.count Effect.removeWatch ∧
        (iteration windows origFi st i).1.sys.watched = st.sys.watched) ∧
      (∀ pathStat handleStat : Except Err FileInfo,
        iteration windows origFi st ⟨Select.dying, pathStat, handleStat⟩
          = ({ st with sys := RemoveWatch st.sys }, Status.returned)) ∧
      (∀ (evt : Event) (pathStat handleStat : Except Err FileInfo),
        iteration windows origFi st ⟨Select.recv evt false, pathStat, handleStat⟩
          = ({ st with sys := RemoveWatch st.sys }, Status.returned)) ∧
      (RemoveWatch st.sys).changes = st.sys.changes ∧
      (RemoveWatch st.sys).log = st.sys.log ++ [Effect.removeWatch] := by
  obtain ⟨hc, hw, -⟩ := runLoop_watch windows origFi inputs st
  refine ⟨hc, hw, ?_, fun _ _ => rfl, fun _ _ _ => rfl, rfl, rfl⟩
  intro i hr
  obtain ⟨hc0, -, hw0⟩ := iteration_watch windows origFi st i
  have hnr : (iteration windows origFi st i).2 ≠ Status.returned := by
    rw [hr]; decide
  rw [if_neg hnr, Nat.add_zero] at hc0
  exact ⟨hc0, hw0 hnr⟩

theorem pollBranch_prevSize (windows : Bool) (origFi : FileInfo) (st : LoopState)
    (pathStat : Except Err FileInfo) :
    (pollBranch windows origFi st pathStat).1.prevSize = st.prevSize := by
  cases pathStat with
  | error e =>
    simp only [pollBranch]
    split_ifs <;> rfl
  | ok fi =>
    simp only [pollBranch]
    split_ifs <;> rfl

theorem writeBranch_pollPrevSize (st : LoopState) (handleStat : Except Err FileInfo) :
    (writeBranch st handleStat).1.pollPrevSize = st.pollPrevSize := by
  cases handleStat with
  | error e =>
    simp only [writeBranch]
    split_ifs <;> rfl
  | ok fi =>
    simp only [writeBranch]
    split_ifs <;> rfl

/-- C17. Independent baselines: no iteration on a received event (or on a
closed feed) changes `pollPrevSize`, and no iteration on a tick changes
`prevSize`. Scenario: a session started at offset 100; a write event whose
handle stat reports size 150 gives `prevSize = 150` and leaves
`pollPrevSize = 100`; a tick that then finds the same file at size 120 calls
`NotifyModified` only, sets `pollPrevSize = 120`, and neither attempts a send
on the Truncated slot nor changes it. -/
theorem independent_baselines (windows : Bool) (origFi : FileInfo) (st : LoopState)
    (name : String) (mt1 mt2 : Int) (dev1 ino1 : Nat)
    (pathStat1 handleStat2 : Except Err FileInfo) :
    (∀ (evt : Event) (ok : Bool) (pathStat handleStat : Except Err FileInfo),
      (iteration windows origFi st ⟨Select.recv evt ok, pathStat, handleStat⟩).1.pollPrevSize
        = st.pollPrevSize) ∧
    (∀ pathStat handleStat : Except Err FileInfo,
      (iteration windows origFi st ⟨Select.tick, pathStat, handleStat⟩).1.prevSize
        = st.prevSize) ∧
    ChangeEvents none (Except.ok origFi) none 100
      = Except.ok (origFi, ⟨100, 100, 100, origFi.modTime, ⟨NewFileChanges, true, []⟩⟩) ∧
    iteration windows origFi ⟨100, 100, 100, origFi.modTime, ⟨NewFileChanges, true, []⟩⟩
        ⟨Select.recv ⟨name, Write⟩ true, pathStat1, Except.ok ⟨150, mt1, dev1, ino1⟩⟩
      = (⟨150, 150, 100, origFi.modTime,
          NotifyModified ⟨NewFileChanges, true, [Effect.statHandle]⟩⟩, Status.running) ∧
    runLoop windows origFi ⟨100, 100, 100, origFi.modTime, ⟨NewFileChanges, true, []⟩⟩
        [⟨Select.recv ⟨name, Write⟩ true, pathStat1, Except.ok ⟨150, mt1, dev1, ino1⟩⟩,
          ⟨Select.tick, Except.ok { origFi with size := 120, modTime := mt2 }, handleStat2⟩]
      = (⟨120, 150, 120, origFi.modTime,
          ⟨⟨⟨1, [true]⟩, Chan.make 1, Chan.make 1⟩, true,
            [Effect.statHandle, Effect.send Slot.Modified, Effect.statPath,
              Effect.send Slot.Modified]⟩⟩, Status.running) := by
  have hw1 : ¬ (Write &&& Remove = Remove) := by decide
  have hw2 : ¬ (Write &&& Rename = Rename) := by decide
  have hw3 : Write &&& Write = Write := by decide
  have hsame : ∀ (sz mt : Int),
      SameFile origFi { origFi with size := sz, modTime := mt } = true := by
    intro sz mt
    simp [SameFile]
  have hev : iteration windows origFi
      ⟨100, 100, 100, origFi.modTime, ⟨NewFileChanges, true, []⟩⟩
      ⟨Select.recv ⟨name, Write⟩ true, pathStat1, Except.ok ⟨150, mt1, dev1, ino1⟩⟩
      = (⟨150, 150, 100, origFi.modTime,
          NotifyModified ⟨NewFileChanges, true, [Effect.statHandle]⟩⟩, Status.running) := by
    simp [iteration, switchBody, writeBranch, hw1, hw2, hw3]
  refine ⟨?_, ?_, rfl, hev, ?_⟩
  · intro evt ok pathStat handleStat
    cases ok with
    | false => rfl
    | true =>
      simp only [iteration, switchBody, Bool.not_true, Bool.false_eq_true, if_false]
      split_ifs
      · rfl
      · rfl
      · exact writeBranch_pollPrevSize st handleStat
      · exact writeBranch_pollPrevSize st handleStat
      · rfl
  · intro pathStat handleStat
    rw [iteration_tick]
    exact pollBranch_prevSize windows origFi st pathStat
  · rw [runLoop_cons, hev]
    simp only [if_true, runLoop_cons, iteration_tick]
    simp [pollBranch, hsame, runLoop, NotifyModified, sendOnlyIfEmpty, NewFileChanges, Chan.make]

/-- C18. A tick that classifies a size change (the stat succeeds with the
recorded identity, `pollPrevSize > 0` and the size differs from it) leaves
`prevModTime` unchanged. On a following tick that observes the same size,
`NotifyModified` is called whenever the file's modification time differs from
the stored one, be it later or earlier, and that tick stores the observed
time; when the time equals the stored one nothing is sent. -/
theorem poll_timestamp_after_size_change (windows : Bool) (origFi fi1 fi2 : FileInfo)
    (st : LoopState) (handleStat1 handleStat2 : Except Err FileInfo)
    (hv : st.sys.changes.Valid)
    (hid1 : SameFile origFi fi1 = true) (hid2 : SameFile origFi fi2 = true)
    (hpos : 0 < st.pollPrevSize) (hchg : fi1.size ≠ st.pollPrevSize)
    (hsame : fi2.size = fi1.size) :
    ∃ st1 : LoopState,
      iteration windows origFi st ⟨Select.tick, Except.ok fi1, handleStat1⟩
        = (st1, Status.running) ∧
      st1.prevModTime = st.prevModTime ∧
      st1.pollPrevSize = fi1.size ∧
      Effect.send Slot.Modified ∈ st1.sys.log.drop st.sys.log.length ∧
      (fi2.modTime ≠ st.prevModTime →
        ∃ st2 : LoopState,
          iteration windows origFi st1 ⟨Select.tick, Except.ok fi2, handleStat2⟩
            = (st2, Status.running) ∧
          st2.sys = NotifyModified { st1.sys with log := st1.sys.log ++ [Effect.statPath] } ∧
          st2.sys.log = st1.sys.log ++ [Effect.statPath, Effect.send Slot.Modified] ∧
          st2.sys.changes.Modified.pending = 1 ∧
          st2.prevModTime = fi2.modTime) ∧
      (fi2.modTime = st.prevModTime →
        ∃ st2 : LoopState,
          iteration windows origFi st1 ⟨Select.tick, Except.ok fi2, handleStat2⟩
            = (st2, Status.running) ∧
          st2.sys.changes = st1.sys.changes ∧
          st2.sys.log = st1.sys.log ++ [Effect.statPath] ∧
          st2.prevModTime = st.prevModTime) := by
  obtain ⟨hm, -, -⟩ := hv
  have hpend := sendOnlyIfEmpty_pending _ hm.1 hm.2
  have hcap : (sendOnlyIfEmpty st.sys.changes.Modified).cap = 1 := by
    rw [sendOnlyIfEmpty_cap]; exact hm.1
  have hpend2 : (sendOnlyIfEmpty (sendOnlyIfEmpty st.sys.changes.Modified)).buf.length = 1 :=
    sendOnlyIfEmpty_pending _ hcap (le_of_eq hpend)
  -- the second tick, from any state whose poll baseline is the size it observes
  have second : ∀ st1 : LoopState, st1.pollPrevSize = fi1.size →
      st1.prevModTime = st.prevModTime →
      (sendOnlyIfEmpty st1.sys.changes.Modified).buf.length = 1 →
      (fi2.modTime ≠ st.prevModTime →
        ∃ st2 : LoopState,
          iteration windows origFi st1 ⟨Select.tick, Except.ok fi2, handleStat2⟩
            = (st2, Status.running) ∧
          st2.sys = NotifyModified { st1.sys with log := st1.sys.log ++ [Effect.statPath] } ∧
          st2.sys.log = st1.sys.log ++ [Effect.statPath, Effect.send Slot.Modified] ∧
          st2.sys.changes.Modified.pending = 1 ∧
          st2.prevModTime = fi2.modTime) ∧
      (fi2.modTime = st.prevModTime →
        ∃ st2 : LoopState,
          iteration windows origFi st1 ⟨Select.tick, Except.ok fi2, handleStat2⟩
            = (st2, Status.running) ∧
          st2.sys.changes = st1.sys.changes ∧
          st2.sys.log = st1.sys.log ++ [Effect.statPath] ∧
          st2.prevModTime = st.prevModTime) := by
    intro st1 hp1 hmt1 hpd
    have hn1 : ¬ (st1.pollPrevSize > 0 ∧ st1.pollPrevSize > fi2.size) := by
      intro h; omega
    have hn2 : ¬ (st1.pollPrevSize > 0 ∧ st1.pollPrevSize < fi2.size) := by
      intro h; omega
    constructor
    · intro hne
      have hne1 : fi2.modTime ≠ st1.prevModTime := by rw [hmt1]; exact hne
      refine ⟨{ st1 with
                  Size := fi2.size
                  pollPrevSize := fi2.size
                  prevModTime := fi2.modTime
                  sys := NotifyModified
                    { st1.sys with log := st1.sys.log ++ [Effect.statPath] } },
        ?_, rfl, ?_, hpd, rfl⟩
      · rw [iteration_tick]
        simp only [pollBranch, hid2, Bool.not_true, Bool.false_eq_true, if_false, hn1, hn2]
        simp [hne1]
      · simp [NotifyModified]
    · intro heq
      have heq1 : fi2.modTime = st1.prevModTime := by rw [hmt1]; exact heq
      refine ⟨{ st1 with
                  Size := fi2.size
                  pollPrevSize := fi2.size
                  sys := { st1.sys with log := st1.sys.log ++ [Effect.statPath] } },
        ?_, rfl, rfl, hmt1⟩
      rw [iteration_tick]
      simp only [pollBranch, hid2, Bool.not_true, Bool.false_eq_true, if_false, hn1, hn2]
      simp [heq1]
  rcases lt_or_gt_of_ne hchg with hlt | hgt
  · -- truncated
    have hng : ¬ st.pollPrevSize < fi1.size := by omega
    refine ⟨{ st with
                Size := fi1.size
                pollPrevSize := fi1.size
                sys := NotifyTruncated { st.sys with log := st.sys.log ++ [Effect.statPath] } },
      ?_, rfl, rfl, ?_, second _ rfl rfl hpend2⟩
    · rw [iteration_tick]
      simp [pollBranch, hid1, hpos, hlt]
    · simp [NotifyTruncated_log]
  · -- grown
    have hnl : ¬ fi1.size < st.pollPrevSize := by omega
    refine ⟨{ st with
                Size := fi1.size
                pollPrevSize := fi1.size
                sys := NotifyModified { st.sys with log := st.sys.log ++ [Effect.statPath] } },
      ?_, rfl, rfl, ?_, second _ rfl rfl hpend2⟩
    · rw [iteration_tick]
      simp [pollBranch, hid1, hpos, hgt, hnl]
    · simp [NotifyModified]

/-- Witness of C18: `pollPrevSize` 100 and stored time 7; a tick sees size 150,
the next tick sees size 150 with the earlier time 5. -/
theorem poll_timestamp_after_size_change_witness :
    ∃ st1 st2 : LoopState,
      iteration false ⟨100, 7, 1, 2⟩ ⟨100, 100, 100, 7, ⟨NewFileChanges, true, []⟩⟩
          ⟨Select.tick, Except.ok ⟨150, 9, 1, 2⟩, Except.error Err.notExist⟩
        = (st1, Status.running) ∧
      st1.prevModTime = 7 ∧
      iteration false ⟨100, 7, 1, 2⟩ st1
          ⟨Select.tick, Except.ok ⟨150, 5, 1, 2⟩, Except.error Err.notExist⟩
        = (st2, Status.running) ∧
      st2.sys.log = st1.sys.log ++ [Effect.statPath, Effect.send Slot.Modified] ∧
      st2.prevModTime = 5 :=
  have h := poll_timestamp_after_size_change false ⟨100, 7, 1, 2⟩ ⟨150, 9, 1, 2⟩
    ⟨150, 5, 1, 2⟩ ⟨100, 100, 100, 7, ⟨NewFileChanges, true, []⟩⟩
    (Except.error Err.notExist) (Except.error Err.notExist)
    (by decide) (by decide) (by decide) (by decide) (by decide) (by decide)
  h.elim fun st1 h1 =>
    (h1.2.2.2.2.1 (by decide)).elim fun st2 h2 =>
      ⟨st1, st2, h1.1, h1.2.1, h2.1, h2.2.2.1, h2.2.2.2.2⟩

/-- C19. An event whose op contains none of `Remove`, `Rename`, `Chmod` and
`Write` changes nothing: the iteration ends with the very state it started
from (no stat call and no send logged, channels, `fw.Size`, both size
baselines, the stored time and the watch registration as before) and the loop
goes on. -/
theorem event_other_noop (windows : Bool) (origFi : FileInfo) (st : LoopState)
    (evt : Event) (pathStat handleStat : Except Err FileInfo)
    (hrm : evt.Op &&& Remove ≠ Remove) (hrn : evt.Op &&& Rename ≠ Rename)
    (hch : evt.Op &&& Chmod ≠ Chmod) (hwr : evt.Op &&& Write ≠ Write) :
    iteration windows origFi st ⟨Select.recv evt true, pathStat, handleStat⟩
        = (st, Status.running) ∧
      (∀ rest : List Input,
        runLoop windows origFi st (⟨Select.recv evt true, pathStat, handleStat⟩ :: rest)
          = runLoop windows origFi st rest) := by
  have hit : iteration windows origFi st ⟨Select.recv evt true, pathStat, handleStat⟩
      = (st, Status.running) := by
    simp [iteration, switchBody, hrm, hrn, hch, hwr]
  refine ⟨hit, fun rest => ?_⟩
  rw [runLoop_cons, hit]
  simp

/-- Witness of C19: an event with `Create` only. -/
theorem event_other_noop_witness :
    iteration false ⟨100, 7, 1, 2⟩ ⟨100, 100, 100, 7, ⟨NewFileChanges, true, []⟩⟩
        ⟨Select.recv ⟨"app.log", Create⟩ true, Except.ok ⟨40, 9, 1, 3⟩,
          Except.ok ⟨40, 9, 1, 3⟩⟩
      = (⟨100, 100, 100, 7, ⟨NewFileChanges, true, []⟩⟩, Status.running) :=
  (event_other_noop false ⟨100, 7, 1, 2⟩ ⟨100, 100, 100, 7, ⟨NewFileChanges, true, []⟩⟩
    ⟨"app.log", Create⟩ (Except.ok ⟨40, 9, 1, 3⟩) (Except.ok ⟨40, 9, 1, 3⟩)
    (by decide) (by decide) (by decide) (by decide)).1

end Watch
